import Mathlib

/-!
Shallow embedding of the tournament engine in `src/main.py` (Telegram
tournament bot).  The Python functions are translated into pure Lean
functions over an explicit `World` state record that models the SQLite
tables the engine reads and writes (`tournaments`, `matches`,
`registrations`, `round_robin_standings`, `group_stage_standings`,
`score_submissions`).  External collaborators (message sending, logging,
global leaderboard, achievements) have no effect on the modelled state
and are omitted, as the spec classifies them as external side effects.
-/

set_option autoImplicit false

namespace Tournament

/-- Python truthiness of an optional integer id: `None` and `0` are falsy.
The source guards slots with `if not m.get("player1_user_id")` and
winners with `and winner_user_id`, which this predicate mirrors. -/
def pyTruthy : Option Nat → Bool
  | none => false
  | some n => n ≠ 0

/-- `POINTS_FOR_WIN` from `main.py`. -/
def POINTS_FOR_WIN : Int := 3
/-- `POINTS_FOR_DRAW` from `main.py`. -/
def POINTS_FOR_DRAW : Int := 1
/-- `POINTS_FOR_LOSS` from `main.py`. -/
def POINTS_FOR_LOSS : Int := 0

/-- A row of the `tournaments` table (fields relevant to the engine). -/
structure TournamentRec where
  id : String
  creator_id : Nat
  name : String
  type : String
  status : String
  winner_user_id : Option Nat := none
  winner_username : Option String := none
  num_swiss_rounds : Nat := 0
  current_swiss_round : Nat := 0
  swiss_knockout_qualifiers : Nat := 0
deriving Repr, DecidableEq

/-- The textual score column of `matches`: either the numeric string
`"a-b"` the finalization path writes and parses back with
`map(int, score_str.split("-"))`, or the literal `"W-L"` stored for Swiss
bye matches. -/
inductive ScoreVal where
  | nums (p1 p2 : Int)
  | wl
deriving Repr, DecidableEq

/-- A row of the `matches` table. -/
structure MatchRec where
  match_id : Nat
  tournament_id : String
  round_number : Nat
  match_in_round_index : Nat
  player1_user_id : Option Nat := none
  player1_username : Option String := none
  player2_user_id : Option Nat := none
  player2_username : Option String := none
  winner_user_id : Option Nat := none
  score : Option ScoreVal := none
  status : String
  next_match_id : Option Nat := none
  group_id : Option Nat := none
deriving Repr, DecidableEq

/-- A row of `round_robin_standings` (also used for Swiss). -/
structure RRRow where
  tournament_id : String
  user_id : Option Nat
  username : String
  games_played : Int := 0
  wins : Int := 0
  draws : Int := 0
  losses : Int := 0
  goals_for : Int := 0
  goals_against : Int := 0
  goal_difference : Int := 0
  points : Int := 0
deriving Repr, DecidableEq

/-- A row of `group_stage_standings`. -/
structure GSRow where
  tournament_id : String
  group_id : Nat
  user_id : Option Nat
  username : String
  games_played : Int := 0
  wins : Int := 0
  draws : Int := 0
  losses : Int := 0
  goals_for : Int := 0
  goals_against : Int := 0
  goal_difference : Int := 0
  points : Int := 0
deriving Repr, DecidableEq

/-- A row of `score_submissions`, keyed by `(match_id, user_id)`. -/
structure Submission where
  match_id : Nat
  user_id : Nat
  score_p1 : Int
  score_p2 : Int
deriving Repr, DecidableEq

/-- A row of `registrations`. -/
structure Registration where
  tournament_id : String
  user_id : Nat
  username : String
deriving Repr, DecidableEq

/-- The persistent state the engine operates on. -/
structure World where
  tournaments : List TournamentRec
  matchRows : List MatchRec
  registrations : List Registration := []
  rr_standings : List RRRow := []
  gs_standings : List GSRow := []
  submissions : List Submission := []
deriving Repr, DecidableEq

/-- `get_tournament_details_by_id`: `SELECT * FROM tournaments WHERE id = ?`. -/
def get_tournament_details_by_id (w : World) (t_id : String) : Option TournamentRec :=
  w.tournaments.find? (fun t => t.id == t_id)

/-- `get_match_details_by_match_id`: `SELECT * FROM matches WHERE match_id = ?`. -/
def get_match_details_by_match_id (w : World) (mid : Nat) : Option MatchRec :=
  w.matchRows.find? (fun m => m.match_id == mid)

/-- `UPDATE matches SET ... WHERE match_id = ?` applied to the match list. -/
def setMatchRows (ms : List MatchRec) (mid : Nat) (f : MatchRec → MatchRec) : List MatchRec :=
  ms.map (fun m => if m.match_id == mid then f m else m)

/-- `get_registered_players`: registrations of one tournament. -/
def get_registered_players (w : World) (t_id : String) : List Registration :=
  w.registrations.filter (fun r => r.tournament_id == t_id)

/-- `get_player_username_by_id`: latest registered display name of a user,
with the `User_<id>` fallback of the source. -/
def get_player_username_by_id (w : World) (uid : Nat) : String :=
  match w.registrations.find? (fun r => r.user_id == uid) with
  | some r => r.username
  | none => "User_" ++ toString uid

/-- `update_tournament_status`: sets the status, and additionally the winner
columns when the new status is `completed` and a (truthy) winner id is
given.  Returns `rowcount > 0`, i.e. whether the tournament exists. -/
def update_tournament_status (w : World) (t_id : String) (new_status : String)
    (winner_user_id : Option Nat := none) (winner_username : Option String := none) :
    Bool × World :=
  let w' :=
    if new_status == "completed" && pyTruthy winner_user_id then
      { w with tournaments := w.tournaments.map (fun t =>
          if t.id == t_id then
            { t with status := new_status, winner_user_id := winner_user_id,
                     winner_username := some (winner_username.getD
                       (get_player_username_by_id w (winner_user_id.getD 0))) }
          else t) }
    else
      { w with tournaments := w.tournaments.map (fun t =>
          if t.id == t_id then { t with status := new_status } else t) }
  ((w.tournaments.any (fun t => t.id == t_id)), w')

/-- `get_matches_for_tournament` with its filters; a `group_id` filter of
`none` selects rows with `group_id IS NULL`, exactly as in the source. -/
def get_matches_for_tournament (w : World) (t_id : String)
    (match_status : Option String := none) (round_number : Option Nat := none)
    (group_id : Option Nat := none) : List MatchRec :=
  w.matchRows.filter (fun m =>
    m.tournament_id == t_id
    && (match match_status with | some s => m.status == s | none => true)
    && (match round_number with | some r => m.round_number == r | none => true)
    && (match group_id with | some g => m.group_id == some g | none => m.group_id == none))

/-- The win/draw/loss and points delta derived from a goal comparison
(shared literal logic of `update_round_robin_player_stats` and
`update_group_stage_player_stats`). -/
def resultDeltas (goals_for goals_against : Int) : Int × Int × Int × Int :=
  if goals_for > goals_against then (1, 0, 0, POINTS_FOR_WIN)
  else if goals_for == goals_against then (0, 1, 0, POINTS_FOR_DRAW)
  else (0, 0, 1, POINTS_FOR_LOSS)

/-- `update_round_robin_player_stats`: `INSERT OR IGNORE` of a zero row for
the key `(tournament_id, user_id)` followed by an accumulating `UPDATE`. -/
def update_round_robin_player_stats (w : World) (t_id : String) (uid : Option Nat)
    (uname : String) (goals_for goals_against : Int) : World :=
  let table :=
    if w.rr_standings.any (fun r => r.tournament_id == t_id && r.user_id == uid) then
      w.rr_standings
    else
      w.rr_standings ++ [{ tournament_id := t_id, user_id := uid, username := uname }]
  let d := resultDeltas goals_for goals_against
  { w with rr_standings := table.map (fun r =>
      if r.tournament_id == t_id && r.user_id == uid then
        { r with games_played := r.games_played + 1,
                 wins := r.wins + d.1, draws := r.draws + d.2.1, losses := r.losses + d.2.2.1,
                 goals_for := r.goals_for + goals_for,
                 goals_against := r.goals_against + goals_against,
                 goal_difference := r.goal_difference + (goals_for - goals_against),
                 points := r.points + d.2.2.2 }
      else r) }

/-- `update_group_stage_player_stats`: same accumulation, keyed by
`(tournament_id, group_id, user_id)` in `group_stage_standings`. -/
def update_group_stage_player_stats (w : World) (t_id : String) (gid : Nat)
    (uid : Option Nat) (uname : String) (goals_for goals_against : Int) : World :=
  let table :=
    if w.gs_standings.any (fun r =>
        r.tournament_id == t_id && r.group_id == gid && r.user_id == uid) then
      w.gs_standings
    else
      w.gs_standings ++
        [{ tournament_id := t_id, group_id := gid, user_id := uid, username := uname }]
  let d := resultDeltas goals_for goals_against
  { w with gs_standings := table.map (fun r =>
      if r.tournament_id == t_id && r.group_id == gid && r.user_id == uid then
        { r with games_played := r.games_played + 1,
                 wins := r.wins + d.1, draws := r.draws + d.2.1, losses := r.losses + d.2.2.1,
                 goals_for := r.goals_for + goals_for,
                 goals_against := r.goals_against + goals_against,
                 goal_difference := r.goal_difference + (goals_for - goals_against),
                 points := r.points + d.2.2.2 }
      else r) }

/-- Lexicographic comparison of code-point lists, the order Python uses
for its string comparison. -/
def charListLt : List Nat → List Nat → Bool
  | [], [] => false
  | [], _ :: _ => true
  | _ :: _, [] => false
  | a :: as, b :: bs => if a < b then true else if b < a then false else charListLt as bs

/-- String comparison by code points (Python `<` on `str`). -/
def strLt (a b : String) : Bool :=
  charListLt (a.toList.map Char.toNat) (b.toList.map Char.toNat)

/-- Stable insertion of `a` into a sorted list: `a` goes before the first
element `b` such that `le a b`, hence after all earlier equal keys. -/
def insSorted {α : Type} (le : α → α → Bool) : α → List α → List α
  | a, [] => [a]
  | a, b :: l => if le a b then a :: b :: l else b :: insSorted le a l

/-- A stable sort by the boolean "comes no later than" relation `le`
(ties must make `le` true both ways).  It models both the SQL `ORDER BY`
of `get_round_robin_standings` and the stable Python `list.sort`: any two
stable sorts by the same key agree. -/
def stableSort {α : Type} (le : α → α → Bool) : List α → List α
  | [] => []
  | a :: l => insSorted le a (stableSort le l)

/-- The `ORDER BY points DESC, goal_difference DESC, goals_for DESC,
username ASC` comparison of `get_round_robin_standings`, as a boolean
"comes no later than" relation for a stable sort. -/
def rrOrderLE (a b : RRRow) : Bool :=
  if a.points ≠ b.points then a.points > b.points
  else if a.goal_difference ≠ b.goal_difference then a.goal_difference > b.goal_difference
  else if a.goals_for ≠ b.goals_for then a.goals_for > b.goals_for
  else !(strLt b.username a.username)

/-- `get_round_robin_standings`: ranked standings rows of one tournament. -/
def get_round_robin_standings (w : World) (t_id : String) : List RRRow :=
  stableSort rrOrderLE (w.rr_standings.filter (fun r => r.tournament_id == t_id))

/-- `add_score_submission`: insert, or overwrite on the `(match_id, user_id)`
conflict, a submitted score pair. -/
def add_score_submission (w : World) (mid uid : Nat) (score_p1 score_p2 : Int) : World :=
  if w.submissions.any (fun s => s.match_id == mid && s.user_id == uid) then
    { w with submissions := w.submissions.map (fun s =>
        if s.match_id == mid && s.user_id == uid then
          { s with score_p1 := score_p1, score_p2 := score_p2 }
        else s) }
  else
    { w with submissions := w.submissions ++
        [{ match_id := mid, user_id := uid, score_p1 := score_p1, score_p2 := score_p2 }] }

/-- `get_score_submissions_for_match`. -/
def get_score_submissions_for_match (w : World) (mid : Nat) : List Submission :=
  w.submissions.filter (fun s => s.match_id == mid)

/-- `clear_score_submissions_for_match`: `DELETE FROM score_submissions
WHERE match_id = ?`. -/
def clear_score_submissions_for_match (w : World) (mid : Nat) : World :=
  { w with submissions := w.submissions.filter (fun s => !(s.match_id == mid)) }

/-! ### Bracket builder (Single Elimination branch of `start_tournament_command`)

The source walks a padded, shuffled participant list two at a time to
create round-1 matches, then repeatedly pairs "advancing nodes" (pending
matches or directly promoted players) into shell matches until a single
node, the final, remains.  Database autoincrement ids are modelled by an
explicit id counter. -/

/-- A participant entry of the padded bracket list: `(user_id, username)`
with `user_id = none` for a virtual BYE entry. -/
abbrev PData := Option Nat × String

/-- An advancing node of the bracket construction: a match whose winner is
pending, or an already-resolved player. -/
inductive BNode where
  | matchNode (id : Nat)
  | playerNode (uid : Nat) (uname : String)
deriving Repr, DecidableEq

/-- Output of the round-1 walk: advancing nodes, created matches (in
creation order) and the next free match id. -/
structure R1Out where
  nodes : List BNode
  ms : List MatchRec
  ctr : Nat
deriving Repr, DecidableEq

/-- Round-1 of the bracket build (source lines 4105-4190): pop entries two
at a time; real-vs-real becomes a `scheduled` match, real-vs-BYE promotes
the real player, BYE-vs-BYE produces nothing; an odd real leftover is
promoted directly. -/
def bracketRound1 (t_id : String) : List PData → Nat → Nat → R1Out
  | [], _, ctr => ⟨[], [], ctr⟩
  | [p1], _, ctr =>
      match p1.1 with
      | some u => ⟨[BNode.playerNode u p1.2], [], ctr⟩
      | none => ⟨[], [], ctr⟩
  | p1 :: p2 :: rest, idx, ctr =>
      match p1.1, p2.1 with
      | some u1, some u2 =>
          let m : MatchRec :=
            { match_id := ctr, tournament_id := t_id, round_number := 1,
              match_in_round_index := idx + 1,
              player1_user_id := some u1, player1_username := some p1.2,
              player2_user_id := some u2, player2_username := some p2.2,
              status := "scheduled" }
          let r := bracketRound1 t_id rest (idx + 1) (ctr + 1)
          ⟨BNode.matchNode ctr :: r.nodes, m :: r.ms, r.ctr⟩
      | some u1, none =>
          let r := bracketRound1 t_id rest (idx + 1) ctr
          ⟨BNode.playerNode u1 p1.2 :: r.nodes, r.ms, r.ctr⟩
      | none, some u2 =>
          let r := bracketRound1 t_id rest (idx + 1) ctr
          ⟨BNode.playerNode u2 p2.2 :: r.nodes, r.ms, r.ctr⟩
      | none, none => bracketRound1 t_id rest (idx + 1) ctr

/-- Builds one shell match from two advancing nodes (source lines
4214-4245): player nodes fill the first slot that `is None`, and the shell
is `scheduled` instead of `pending_players` when both slots hold truthy
ids. -/
def mkShell (t_id : String) (roundNum idx : Nat) (n1 n2 : BNode) (ctr : Nat) : MatchRec :=
  let base : MatchRec :=
    { match_id := ctr, tournament_id := t_id, round_number := roundNum,
      match_in_round_index := idx, status := "pending_players" }
  let b1 := match n1 with
    | BNode.playerNode u un =>
        { base with player1_user_id := some u, player1_username := some un }
    | BNode.matchNode _ => base
  let b2 := match n2 with
    | BNode.playerNode u un =>
        if b1.player1_user_id == none then
          { b1 with player1_user_id := some u, player1_username := some un }
        else
          { b1 with player2_user_id := some u, player2_username := some un }
    | BNode.matchNode _ => b1
  if pyTruthy b2.player1_user_id && pyTruthy b2.player2_user_id then
    { b2 with status := "scheduled" }
  else b2

/-- `UPDATE matches SET next_match_id = ? WHERE match_id = ?` for the match
behind an advancing node (a player node links nothing). -/
def linkToShell (store : List MatchRec) (n : BNode) (shellId : Nat) : List MatchRec :=
  match n with
  | BNode.matchNode mid =>
      setMatchRows store mid (fun m => { m with next_match_id := some shellId })
  | BNode.playerNode _ _ => store

/-- Match store plus id counter carried through the shell rounds. -/
structure BuildSt where
  nextId : Nat
  store : List MatchRec
deriving Repr, DecidableEq

/-- One shell round (inner `while temp_active_shell_nodes` loop): pairs
nodes two at a time into shell matches, links the contributing matches to
the new shell, and carries an odd leftover node to the next round. -/
def bracketShellRound (t_id : String) (roundNum : Nat) :
    List BNode → Nat → BuildSt → List BNode × BuildSt
  | [], _, st => ([], st)
  | [n], _, st => ([n], st)
  | n1 :: n2 :: rest, idx, st =>
      let shell := mkShell t_id roundNum (idx + 1) n1 n2 st.nextId
      let store1 := st.store ++ [shell]
      let store2 := linkToShell (linkToShell store1 n1 shell.match_id) n2 shell.match_id
      let r := bracketShellRound t_id roundNum rest (idx + 1)
                 { nextId := st.nextId + 1, store := store2 }
      (BNode.matchNode shell.match_id :: r.1, r.2)

theorem bracketShellRound_fst_length (t_id : String) (roundNum : Nat) :
    ∀ (ns : List BNode) (idx : Nat) (st : BuildSt),
      (bracketShellRound t_id roundNum ns idx st).1.length = (ns.length + 1) / 2
  | [], _, _ => rfl
  | [_], _, _ => by simp [bracketShellRound]
  | n1 :: n2 :: rest, idx, st => by
      have ih := bracketShellRound_fst_length t_id roundNum rest (idx + 1)
      simp only [bracketShellRound, List.length_cons, ih]
      omega

/-- The outer shell loop (`while len(active_nodes_for_next_round) > 1`).
The round counter is incremented once at the top and once at the bottom of
each iteration, exactly as in the source. -/
def bracketShellLoop (t_id : String) (ns : List BNode) (roundNum : Nat) (st : BuildSt) :
    List BNode × BuildSt :=
  if ns.length ≤ 1 then (ns, st)
  else
    let r := bracketShellRound t_id (roundNum + 1) ns 0 st
    bracketShellLoop t_id r.1 (roundNum + 2) r.2
termination_by ns.length
decreasing_by
  rw [bracketShellRound_fst_length]
  omega

/-- The whole Single Elimination bracket construction from a padded entry
list: round 1, then shell rounds until one node remains.  Returns the
final advancing node list (a singleton in all reachable cases) and the
created matches. -/
def buildBracket (t_id : String) (entries : List PData) (startId : Nat) :
    List BNode × BuildSt :=
  let r1 := bracketRound1 t_id entries 0 startId
  bracketShellLoop t_id r1.nodes 1 { nextId := r1.ctr, store := r1.ms }

/-- The padded bracket size: `2 ** ceil(log2 n)` from the source. -/
def bracketSize (n : Nat) : Nat := 2 ^ (Nat.clog 2 n)

/-- Next autoincrement id of the `matches` table. -/
def nextMatchId (w : World) : Nat :=
  (w.matchRows.map (fun m => m.match_id)).foldr max 0 + 1

/-- `generate_swiss_knockout_bracket`: ranks the league standings, takes
the top qualifiers, switches the tournament to `ongoing_knockout` and
builds a single-elimination bracket for them.  The `random.shuffle`
seeding step is modelled as the identity permutation; the Swiss variant
of the shell loop in the source numbers its rounds slightly differently
from the Single Elimination branch, which does not affect the modelled
match set beyond the `round_number` column.  No theorem in this file
depends on this path. -/
def generate_swiss_knockout_bracket (w : World) (t_id : String) (num_qualifiers : Nat) :
    World :=
  let standings := get_round_robin_standings w t_id
  let actual := standings.filter (fun r => !(r.user_id == none))
  if actual.length < 2 then (update_tournament_status w t_id "completed").2
  else
    let qualifying := actual.take num_qualifiers
    if qualifying.length < 2 then (update_tournament_status w t_id "completed").2
    else
      let w1 := (update_tournament_status w t_id "ongoing_knockout").2
      let n := qualifying.length
      let size := bracketSize n
      let entries : List PData :=
        qualifying.map (fun r => (r.user_id, r.username))
          ++ List.replicate (size - n) ((none : Option Nat), "BYE")
      let built := buildBracket t_id entries (nextMatchId w1)
      { w1 with matchRows := w1.matchRows ++ built.2.store }

/-! ### Swiss round generation -/

/-- A `players_to_pair` entry of `generate_swiss_round_matches`. -/
structure SwissPlayer where
  user_id : Option Nat
  username : String
deriving Repr, DecidableEq

/-- `has_played_against`: two players have a prior meeting in the given
match list. -/
def has_played_against (p1 p2 : Option Nat) (hist : List MatchRec) : Bool :=
  hist.any (fun m =>
    (m.player1_user_id == p1 && m.player2_user_id == p2)
    || (m.player1_user_id == p2 && m.player2_user_id == p1))

/-- The Python `standings.sort(key=(points, gd, gf, username), reverse=True)`
comparison: descending lexicographic order on the key, with ties treated
as "keep original order" by a stable merge sort. -/
def swissSortLE (a b : RRRow) : Bool :=
  if a.points ≠ b.points then a.points > b.points
  else if a.goal_difference ≠ b.goal_difference then a.goal_difference > b.goal_difference
  else if a.goals_for ≠ b.goals_for then a.goals_for > b.goals_for
  else if a.username ≠ b.username then strLt b.username a.username
  else true

/-- The inner scan of the pairing loop: index of the first unpaired
remaining player with no prior completed meeting against `p1`. -/
def findOpponentIdx (p1 : SwissPlayer) (hist : List MatchRec) (paired : List (Option Nat)) :
    List SwissPlayer → Nat → Option Nat
  | [], _ => none
  | p2 :: rest, i =>
      if paired.contains p2.user_id then findOpponentIdx p1 hist paired rest (i + 1)
      else if !(has_played_against p1.user_id p2.user_id hist) then some i
      else findOpponentIdx p1 hist paired rest (i + 1)

/-- A scheduled Swiss pairing (source dict, lines 1225-1236); produced
matches carry `match_id = 0` because ids are only assigned when the caller
inserts them into the database. -/
def swissPairMatch (t_id : String) (round_number idx : Nat) (p1 p2 : SwissPlayer) : MatchRec :=
  { match_id := 0, tournament_id := t_id, round_number := round_number,
    match_in_round_index := idx,
    player1_user_id := p1.user_id, player1_username := some p1.username,
    player2_user_id := p2.user_id, player2_username := some p2.username,
    status := "scheduled" }

/-- A Swiss bye match (source dict, lines 1247-1261). -/
def swissByeMatch (t_id : String) (round_number idx : Nat) (p1 : SwissPlayer) : MatchRec :=
  { match_id := 0, tournament_id := t_id, round_number := round_number,
    match_in_round_index := idx,
    player1_user_id := p1.user_id, player1_username := some p1.username,
    player2_user_id := none, player2_username := some "BYE",
    winner_user_id := p1.user_id, score := some ScoreVal.wl,
    status := "bye" }

/-- The greedy pairing loop of `generate_swiss_round_matches` (source
lines 1208-1273).  A player with no available non-rematch opponent gets a
bye, whose synthetic 1-0 win is applied to the standings immediately.
The `fuel` argument bounds the remaining loop iterations: the source
`while unpaired_players` loop removes at least one player per iteration,
so the initial pool length (what the caller passes) is always enough and
the zero-fuel clause is unreachable. -/
def swissPairLoop (t_id : String) (round_number : Nat) (hist : List MatchRec) :
    Nat → List SwissPlayer → List (Option Nat) → Nat → List MatchRec → World →
    List MatchRec × World
  | _, [], _, _, acc, w => (acc, w)
  | 0, _ :: _, _, _, acc, w => (acc, w)
  | fuel + 1, p1 :: rest, paired, idx, acc, w =>
      if paired.contains p1.user_id then
        swissPairLoop t_id round_number hist fuel rest paired idx acc w
      else
        match findOpponentIdx p1 hist paired rest 0 with
        | some i =>
            let p2 := rest.getD i ⟨none, ""⟩
            swissPairLoop t_id round_number hist fuel (rest.eraseIdx i)
              (p1.user_id :: p2.user_id :: paired) (idx + 1)
              (acc ++ [swissPairMatch t_id round_number (idx + 1) p1 p2]) w
        | none =>
            if !(p1.user_id == none) then
              swissPairLoop t_id round_number hist fuel rest (p1.user_id :: paired) (idx + 1)
                (acc ++ [swissByeMatch t_id round_number (idx + 1) p1])
                (update_round_robin_player_stats w t_id p1.user_id p1.username 1 0)
            else
              swissPairLoop t_id round_number hist fuel rest paired idx acc w

/-- `generate_swiss_round_matches`: ranks the roster (players without a
standings row default to a zero row), then pairs greedily from the top,
avoiding rematches, giving byes where no opponent is available.  Returns
the round match list and the world with any bye results applied. -/
def generate_swiss_round_matches (w : World) (t_id : String) (round_number : Nat)
    (registered_players : List SwissPlayer) : List MatchRec × World :=
  let standings := get_round_robin_standings w t_id
  let ids := standings.map (fun r => r.user_id)
  let full := standings ++
    ((registered_players.filter (fun p => !(ids.contains p.user_id))).map
      (fun p => ({ tournament_id := t_id, user_id := p.user_id,
                   username := p.username } : RRRow)))
  let ranked := stableSort swissSortLE full
  let players_to_pair := ranked.map (fun r =>
    ({ user_id := r.user_id, username := r.username } : SwissPlayer))
  let hist := get_matches_for_tournament w t_id (some "completed") none none
  swissPairLoop t_id round_number hist players_to_pair.length players_to_pair [] 0 [] w

/-! ### Round-robin scheduling (`generate_round_robin_fixtures`)

The circle method of the source: pad an odd field with a dummy BYE entry
(`user_id = None`, modelled as `none`), play `n - 1` rounds where round
`i` pairs position `0` with position `n-1` and position `j` with position
`n-1-j`, rotating positions `1..n-1` one step to the right between
rounds, and finally drop the pairings that involve the dummy and any
round left empty. -/

/-- One round of pairings read off the current `pairs` arrangement.  The
source appends `(pairs[0], pairs[n-1])` and then `(pairs[j], pairs[n-1-j])`
for `j` in `1..n//2-1`; the first pairing is the `j = 0` instance of the
same formula. -/
def rrRoundMatches {α : Type} (pairs : List α) : List (α × α) :=
  (List.range (pairs.length / 2)).filterMap fun j =>
    match pairs.get? j, pairs.get? (pairs.length - 1 - j) with
    | some a, some b => some (a, b)
    | _, _ => none

/-- The in-place rotation between rounds: position 0 is fixed and the tail
rotates right by one (`pairs[1] := pairs[n-1]`, the rest shift up). -/
def rotateTail {α : Type} : List α → List α
  | [] => []
  | p0 :: rest =>
      p0 :: (match rest.getLast? with
             | none => []
             | some x => x :: rest.dropLast)

/-- The `for i in range(n - 1)` schedule loop. -/
def rrRoundsAux {α : Type} : Nat → List α → List (List (α × α))
  | 0, _ => []
  | k + 1, pairs => rrRoundMatches pairs :: rrRoundsAux k (rotateTail pairs)

/-- `generate_round_robin_fixtures` on the player ids (usernames play no
role in the schedule): pad, run the circle method, then drop BYE pairings
and empty rounds. -/
def generate_round_robin_fixtures (players : List Nat) :
    List (List (Option Nat × Option Nat)) :=
  let padded : List (Option Nat) :=
    (players.map some) ++ (if players.length % 2 ≠ 0 then [none] else [])
  let schedule := rrRoundsAux (padded.length - 1) padded
  (schedule.map (List.filter (fun m => m.1.isSome && m.2.isSome))).filter
    (fun r => !r.isEmpty)

/-! ### The match/tournament state machine -/

/-- The write of the initial `UPDATE matches SET score = ?, winner_user_id
= ?, status = ? WHERE match_id = ?` in `update_match_score_and_progress`. -/
def scoreStamp (score : Int × Int) (winner : Option Nat) (new_status : String)
    (x : MatchRec) : MatchRec :=
  { x with score := some (ScoreVal.nums score.1 score.2),
           winner_user_id := winner, status := new_status }

/-- The inline `UPDATE matches SET status = ? WHERE match_id = ?` used by
the state machine and the reporting command. -/
def setMatchStatus (w : World) (mid : Nat) (st : String) : World :=
  { w with matchRows := setMatchRows w.matchRows mid (fun x => { x with status := st }) }

/-- The knockout slot write: the winner goes to slot 1 when slot 1 is not
truthy, otherwise to slot 2 (source lines 2487-2492). -/
def fillSlot (winner : Option Nat) (uname : String) (p1_empty : Bool) (x : MatchRec) :
    MatchRec :=
  if p1_empty then
    { x with player1_user_id := winner, player1_username := some uname }
  else
    { x with player2_user_id := winner, player2_username := some uname }

/-- `update_match_score_and_progress` (source lines 2402-2579).  The score
argument is the integer pair behind the `f"{a}-{b}"` string every caller
formats; the function writes it to the match row and progresses the
tournament.  The creator log, global player stats, leaderboard,
achievements and all chat notifications are external side effects outside
the modelled state. -/
def update_match_score_and_progress (w : World) (mid : Nat) (score : Int × Int)
    (winner_user_id : Option Nat) (new_status : String) : Bool × World :=
  if (get_match_details_by_match_id w mid).isNone then
    -- the initial UPDATE hits no row: `rowcount == 0`
    (false, w)
  else
    let w1 := { w with matchRows := setMatchRows w.matchRows mid (scoreStamp score winner_user_id new_status) }
    match get_match_details_by_match_id w1 mid with
    | none => (true, w1)
    | some m =>
      match get_tournament_details_by_id w1 m.tournament_id with
      | none => (true, w1)
      | some t =>
        let is_knockout_match :=
          (t.type == "Single Elimination")
          || (t.type == "Group Stage & Knockout" && m.group_id == none)
          || (t.status == "ongoing_knockout")
        if is_knockout_match && new_status == "completed" && pyTruthy winner_user_id then
          let winner_display_name := get_player_username_by_id w1 (winner_user_id.getD 0)
          match m.next_match_id with
          | some nid =>
            match get_match_details_by_match_id w1 nid with
            | none => (true, w1)
            | some nm =>
              let w2 := { w1 with matchRows := setMatchRows w1.matchRows nid (fillSlot winner_user_id winner_display_name (!(pyTruthy nm.player1_user_id))) }
              match get_match_details_by_match_id w2 nid with
              | none => (true, w2)
              | some nm2 =>
                if pyTruthy nm2.player1_user_id && pyTruthy nm2.player2_user_id then
                  (true, setMatchStatus w2 nid "scheduled")
                else (true, w2)
          | none =>
            (true, (update_tournament_status w1 t.id "completed" winner_user_id
              (some winner_display_name)).2)
        else if !is_knockout_match && new_status == "completed" then
          if t.type == "Round Robin" || t.type == "Swiss" then
            let w2 := update_round_robin_player_stats w1 t.id m.player1_user_id
              (m.player1_username.getD "") score.1 score.2
            let w3 := update_round_robin_player_stats w2 t.id m.player2_user_id
              (m.player2_username.getD "") score.2 score.1
            if t.type == "Swiss" then
              let cur := t.current_swiss_round
              let remaining :=
                get_matches_for_tournament w3 t.id (some "scheduled") (some cur) none
              if remaining.isEmpty then
                if cur < t.num_swiss_rounds then
                  -- round over, the organizer is prompted to advance
                  (true, w3)
                else if t.swiss_knockout_qualifiers ≥ 2 then
                  (true, generate_swiss_knockout_bracket w3 t.id
                    t.swiss_knockout_qualifiers)
                else
                  match (get_round_robin_standings w3 t.id).head? with
                  | some row =>
                    (true, (update_tournament_status w3 t.id "completed" row.user_id
                      (some row.username)).2)
                  | none => (true, (update_tournament_status w3 t.id "completed").2)
              else (true, w3)
            else (true, w3)
          else if t.type == "Group Stage & Knockout" then
            -- the source branch is literally `pass` (lines 2565-2568)
            (true, w1)
          else (true, w1)
        else (true, w1)

/-- Outcome of `report_score_command` as signalled to the reporter. -/
inductive ReportResult where
  | invalidScore
  | matchNotFound
  | cannotReport (st : String)
  | matchIncomplete
  | notParticipant
  | tournamentNotFound
  | drawRejected
  | finalized
  | finalizeFailed
  | conflictDetected
  | waitingOpponent
deriving Repr, DecidableEq

/-- `report_score_command` (source lines 5348-5643): validation, score
normalization into the player1-vs-player2 frame, submission storage, and
the dual-report protocol (wait, finalize, knockout-draw rejection, or
conflict). -/
def report_score_command (w : World) (uid : Nat) (mid : Nat)
    (score_user score_opp : Int) : ReportResult × World :=
  if score_user < 0 || score_opp < 0 then (.invalidScore, w)
  else
    match get_match_details_by_match_id w mid with
    | none => (.matchNotFound, w)
    | some md =>
      if md.status == "completed" || md.status == "bye" || md.status == "cancelled"
          || md.status == "conflict" then
        (.cannotReport md.status, w)
      else if !(pyTruthy md.player1_user_id) || !(pyTruthy md.player2_user_id) then
        (.matchIncomplete, w)
      else
        let p1id := md.player1_user_id.getD 0
        let p2id := md.player2_user_id.getD 0
        let reporter_is_p1 := uid == p1id
        let reporter_is_p2 := uid == p2id
        if !reporter_is_p1 && !reporter_is_p2 then (.notParticipant, w)
        else
          let score_for_p1 := if reporter_is_p1 then score_user else score_opp
          let score_for_p2 := if reporter_is_p1 then score_opp else score_user
          let opponent_id := if reporter_is_p1 then p2id else p1id
          let w1 := add_score_submission w mid uid score_for_p1 score_for_p2
          let opp_sub := (get_score_submissions_for_match w1 mid).find?
            (fun s => s.user_id == opponent_id)
          match get_tournament_details_by_id w1 md.tournament_id with
          | none => (.tournamentNotFound, w1)
          | some t =>
            match opp_sub with
            | some s =>
              if score_for_p1 == s.score_p1 && score_for_p2 == s.score_p2 then
                let winner_id : Option Nat :=
                  if score_for_p1 > score_for_p2 then some p1id
                  else if score_for_p2 > score_for_p1 then some p2id
                  else none
                let is_knockout_phase :=
                  (t.type == "Single Elimination")
                  || (t.type == "Group Stage & Knockout" && md.group_id == none)
                  || (t.status == "ongoing_knockout")
                if winner_id == none && is_knockout_phase then
                  (.drawRejected, setMatchStatus w1 mid "conflict")
                else
                  let r := update_match_score_and_progress w1 mid
                    (score_for_p1, score_for_p2) winner_id "completed"
                  if r.1 then (.finalized, clear_score_submissions_for_match r.2 mid)
                  else (.finalizeFailed, r.2)
              else
                (.conflictDetected, setMatchStatus w1 mid "conflict")
            | none =>
              (.waitingOpponent, setMatchStatus w1 mid "pending_opponent_report")

/-- Outcome of `conflict_resolve_command`. -/
inductive ResolveResult where
  | invalidScore
  | matchNotFound
  | tournamentNotFound
  | notCreator
  | notResolvable (st : String)
  | matchIncomplete
  | tieRejected
  | resolved
  | resolveFailed
deriving Repr, DecidableEq

/-- `conflict_resolve_command` (source lines 5647-5762): the organizer
override that finalizes a match with an authoritative score.  Note that
its knockout-draw guard differs from the one in `report_score_command`:
it rejects a tie whenever the format is Single Elimination, or the format
is Group Stage & Knockout or Swiss and the match has no group id. -/
def conflict_resolve_command (w : World) (uid : Nat) (mid : Nat) (s1 s2 : Int) :
    ResolveResult × World :=
  if s1 < 0 || s2 < 0 then (.invalidScore, w)
  else
    match get_match_details_by_match_id w mid with
    | none => (.matchNotFound, w)
    | some md =>
      match get_tournament_details_by_id w md.tournament_id with
      | none => (.tournamentNotFound, w)
      | some t =>
        if t.creator_id ≠ uid then (.notCreator, w)
        else if !(md.status == "conflict" || md.status == "scheduled"
            || md.status == "pending_opponent_report") then
          (.notResolvable md.status, w)
        else if !(pyTruthy md.player1_user_id) || !(pyTruthy md.player2_user_id) then
          (.matchIncomplete, w)
        else
          let p1id := md.player1_user_id.getD 0
          let p2id := md.player2_user_id.getD 0
          let winner_id : Option Nat :=
            if s1 > s2 then some p1id else if s2 > s1 then some p2id else none
          if winner_id == none &&
              ((t.type == "Single Elimination")
               || ((t.type == "Group Stage & Knockout" || t.type == "Swiss")
                   && md.group_id == none)) then
            (.tieRejected, w)
          else
            let r := update_match_score_and_progress w mid (s1, s2) winner_id "completed"
            if r.1 then (.resolved, clear_score_submissions_for_match r.2 mid)
            else (.resolveFailed, r.2)

/-- Outcome of the `start_tournament_command` gate. -/
inductive StartResult where
  | notFound
  | notCreator
  | notPending (st : String)
  | singleWinner
  | notEnoughPlayers
  | proceeds
deriving Repr, DecidableEq

/-- The `start_tournament_command` gate (source lines 3960-4076) up to and
including the single-participant auto-completion branch, which runs before
any per-format dispatch.  With two or more registered players the command
sets the status to `ongoing` and proceeds to the per-format fixture
generation, modelled by the standalone builders in this file; the
`proceeds` outcome returns at that dispatch point. -/
def start_tournament_command (w : World) (uid : Nat) (t_id : String) :
    StartResult × World :=
  match get_tournament_details_by_id w t_id with
  | none => (.notFound, w)
  | some t =>
    if t.creator_id ≠ uid then (.notCreator, w)
    else if t.status ≠ "pending" then (.notPending t.status, w)
    else
      match get_registered_players w t_id with
      | [] => (.notEnoughPlayers, w)
      | [p] =>
        (.singleWinner, (update_tournament_status w t_id "completed"
          (some p.user_id) (some p.username)).2)
      | _ :: _ :: _ =>
        (.proceeds, (update_tournament_status w t_id "ongoing").2)

/-! ### General helper lemmas -/

theorem find?_map_preserve {α : Type} (p : α → Bool) (f : α → α) (l : List α)
    (hf : ∀ a, p (f a) = p a) :
    (l.map (fun a => if p a then f a else a)).find? p = (l.find? p).map f := by
  induction l with
  | nil => rfl
  | cons a l ih =>
    by_cases h : p a = true
    · simp [List.find?, h, hf]
    · simp only [Bool.not_eq_true] at h
      simp [List.find?, h, ih]

theorem find?_map_other {α : Type} (p q : α → Bool) (f : α → α) (l : List α)
    (hq : ∀ a, q a = true → p a = false) (hf : ∀ a, q (f a) = q a) :
    (l.map (fun a => if p a then f a else a)).find? q = (l.find? q).map (fun a => a) := by
  induction l with
  | nil => rfl
  | cons a l ih =>
    by_cases h : p a = true
    · have hqa : q a = false := by
        by_cases hb : q a = true
        · rw [hq a hb] at h; exact absurd h (by simp)
        · simpa using hb
      simp [List.find?, h, hf, hqa, ih]
    · simp only [Bool.not_eq_true] at h
      by_cases hb : q a = true
      · simp [List.find?, h, hb]
      · simp only [Bool.not_eq_true] at hb
        simp [List.find?, h, hb, ih]

/-! ### C9: organizer override on an already-completed match -/

/-- C9: applying the organizer override (`conflict_resolve`) to a match
whose status is already `completed` fails at the resolvable-status guard,
before any override logic runs: the command reports the match as not in a
resolvable state and returns the world unchanged, so re-applying an
override on an already-completed match can never double-count standings
rows. -/
theorem c9_resolve_on_completed_is_noop (w : World) (uid mid : Nat) (s1 s2 : Int)
    (md : MatchRec) (t : TournamentRec)
    (hs1 : 0 ≤ s1) (hs2 : 0 ≤ s2)
    (hm : get_match_details_by_match_id w mid = some md)
    (ht : get_tournament_details_by_id w md.tournament_id = some t)
    (hc : t.creator_id = uid)
    (hst : md.status = "completed") :
    conflict_resolve_command w uid mid s1 s2 =
      (ResolveResult.notResolvable "completed", w) := by
  have h0 : (decide (s1 < 0) || decide (s2 < 0)) = false := by
    simp only [Bool.or_eq_false_iff, decide_eq_false_iff_not, not_lt]
    exact ⟨hs1, hs2⟩
  simp only [conflict_resolve_command, h0, Bool.false_eq_true, if_false, hm, ht, hst, hc]
  simp

/-- A concrete world with one completed match, used to witness C9. -/
def c9World : World :=
  { tournaments := [{ id := "T", creator_id := 9, name := "t",
                      type := "Round Robin", status := "ongoing" }],
    matchRows := [{ match_id := 1, tournament_id := "T", round_number := 1,
                    match_in_round_index := 1, player1_user_id := some 1,
                    player2_user_id := some 2, status := "completed" }] }

/-- Witness for `c9_resolve_on_completed_is_noop` at a concrete world. -/
theorem c9_witness :
    conflict_resolve_command c9World 9 1 2 1 =
      (ResolveResult.notResolvable "completed", c9World) :=
  c9_resolve_on_completed_is_noop c9World 9 1 2 1
    { match_id := 1, tournament_id := "T", round_number := 1,
      match_in_round_index := 1, player1_user_id := some 1,
      player2_user_id := some 2, status := "completed" }
    { id := "T", creator_id := 9, name := "t",
      type := "Round Robin", status := "ongoing" }
    (by decide) (by decide) (by decide) (by decide) (by decide) (by decide)

/-! ### C10: starting a pending tournament with one registered participant -/

/-- C10: starting a pending tournament that has exactly one registered
participant immediately completes it with that participant as winner and
creates no matches, regardless of the tournament format: the
single-player branch runs before any per-format dispatch. -/
theorem c10_single_player_autocomplete (w : World) (uid : Nat) (t_id : String)
    (t : TournamentRec) (p : Registration)
    (ht : get_tournament_details_by_id w t_id = some t)
    (hc : t.creator_id = uid)
    (hp : t.status = "pending")
    (hr : get_registered_players w t_id = [p])
    (hu : p.user_id ≠ 0) :
    (start_tournament_command w uid t_id).1 = StartResult.singleWinner ∧
    (start_tournament_command w uid t_id).2.matchRows = w.matchRows ∧
    (get_tournament_details_by_id (start_tournament_command w uid t_id).2 t_id) =
      some { t with status := "completed", winner_user_id := some p.user_id,
                    winner_username := some p.username } := by
  have hbody : start_tournament_command w uid t_id =
      (.singleWinner, (update_tournament_status w t_id "completed"
        (some p.user_id) (some p.username)).2) := by
    unfold start_tournament_command
    rw [ht, hr]
    simp [hc, hp]
  refine ⟨by rw [hbody], ?_, ?_⟩
  · rw [hbody]
    unfold update_tournament_status
    split <;> rfl
  · rw [hbody]
    unfold update_tournament_status
    rw [if_pos (show (("completed" == "completed") && pyTruthy (some p.user_id)) = true by
      simp [pyTruthy, hu])]
    unfold get_tournament_details_by_id
    simp only
    rw [find?_map_preserve (fun x => x.id == t_id)
      (fun x => { x with status := "completed", winner_user_id := some p.user_id,
                         winner_username := some ((some p.username).getD
                           (get_player_username_by_id w ((some p.user_id).getD 0))) })
      w.tournaments (fun a => rfl)]
    rw [show w.tournaments.find? (fun x => x.id == t_id) = some t from ht]
    rfl

/-- The concrete one-registrant pending tournament used to witness C10. -/
def c10World : World :=
  { tournaments := [{ id := "P", creator_id := 9, name := "p",
                      type := "Group Stage & Knockout", status := "pending" }],
    matchRows := [],
    registrations := [{ tournament_id := "P", user_id := 7, username := "Solo" }] }

/-- Witness for `c10_single_player_autocomplete`. -/
theorem c10_witness :
    (start_tournament_command c10World 9 "P").1 = StartResult.singleWinner ∧
    (start_tournament_command c10World 9 "P").2.matchRows = c10World.matchRows ∧
    (get_tournament_details_by_id (start_tournament_command c10World 9 "P").2 "P") =
      some { id := "P", creator_id := 9, name := "p",
             type := "Group Stage & Knockout", status := "completed",
             winner_user_id := some 7, winner_username := some "Solo" } :=
  c10_single_player_autocomplete c10World 9 "P"
    { id := "P", creator_id := 9, name := "p",
      type := "Group Stage & Knockout", status := "pending" }
    { tournament_id := "P", user_id := 7, username := "Solo" }
    (by decide) (by decide) (by decide) (by decide) (by decide)

/-! ### Match-finalization lemmas shared by C1, C2 and C4 -/

theorem get_match_after_set (w : World) (mid : Nat) (f : MatchRec → MatchRec)
    (hf : ∀ m, (f m).match_id = m.match_id) :
    get_match_details_by_match_id { w with matchRows := setMatchRows w.matchRows mid f } mid
      = (get_match_details_by_match_id w mid).map f := by
  unfold get_match_details_by_match_id setMatchRows
  simp only
  exact find?_map_preserve _ f w.matchRows (fun a => by rw [hf])

/-! ### C2: group-stage finalization is an empty stub in the source -/

/-- C2 (code bug): finalizing a Group Stage & Knockout group match performs
no progression at all.  The league branch for this format in
`update_match_score_and_progress` is literally `pass` (main.py lines
2563-2568, with a comment saying the group-stage logic is "simplified for
clarity" and should be added back): the group StandingsRows are not
updated, no per-group completion check runs, and the knockout phase is
never created — the only mutation is the match row itself. -/
theorem c2_group_match_progress_is_stub (w : World) (mid : Nat) (score : Int × Int)
    (winner : Option Nat) (md : MatchRec) (t : TournamentRec) (g : Nat)
    (hm : get_match_details_by_match_id w mid = some md)
    (ht : get_tournament_details_by_id w md.tournament_id = some t)
    (htty : t.type = "Group Stage & Knockout")
    (hnk : t.status ≠ "ongoing_knockout")
    (hg : md.group_id = some g) :
    update_match_score_and_progress w mid score winner "completed" =
      (true, { w with matchRows := setMatchRows w.matchRows mid (scoreStamp score winner "completed") }) := by
  have hfetch := get_match_after_set w mid (scoreStamp score winner "completed")
    (fun m => rfl)
  rw [hm] at hfetch
  unfold update_match_score_and_progress
  rw [hm]
  simp only [Option.isNone_some, Bool.false_eq_true, if_false]
  rw [hfetch]
  simp only [Option.map_some']
  have ht1 : get_tournament_details_by_id
      { w with matchRows := setMatchRows w.matchRows mid (scoreStamp score winner "completed") }
      (scoreStamp score winner "completed" md).tournament_id = some t := ht
  rw [ht1]
  have hgid : (scoreStamp score winner "completed" md).group_id = some g := hg
  simp only [htty, hgid]
  have hnkb : (t.status == "ongoing_knockout") = false := by
    simpa using hnk
  simp [hnkb]

/-- A Group Stage & Knockout world: one group match, reported and agreed. -/
def c2World : World :=
  { tournaments := [{ id := "G", creator_id := 9, name := "g",
                      type := "Group Stage & Knockout", status := "ongoing" }],
    matchRows := [{ match_id := 5, tournament_id := "G", round_number := 1,
                    match_in_round_index := 1, player1_user_id := some 1,
                    player2_user_id := some 2, status := "scheduled",
                    group_id := some 1 }] }

/-- Witness for `c2_group_match_progress_is_stub`: finalizing the group
match leaves `group_stage_standings` empty and creates no knockout
matches. -/
theorem c2_witness :
    update_match_score_and_progress c2World 5 (2, 1) (some 1) "completed" =
      (true, { c2World with matchRows := setMatchRows c2World.matchRows 5 (scoreStamp (2, 1) (some 1) "completed") }) :=
  c2_group_match_progress_is_stub c2World 5 (2, 1) (some 1)
    { match_id := 5, tournament_id := "G", round_number := 1,
      match_in_round_index := 1, player1_user_id := some 1,
      player2_user_id := some 2, status := "scheduled", group_id := some 1 }
    { id := "G", creator_id := 9, name := "g",
      type := "Group Stage & Knockout", status := "ongoing" }
    1 (by decide) (by decide) (by decide) (by decide) (by decide)

/-! ### Submission-store lemmas shared by C7 and C8 -/

/-- The score overwrite of the submission upsert. -/
def subStamp (a b : Int) (s : Submission) : Submission :=
  { s with score_p1 := a, score_p2 := b }

theorem find_user_after_upsert (l : List Submission) (mid uid opp : Nat) (a b : Int) :
    ((l.map (fun s => if s.match_id == mid && s.user_id == uid then subStamp a b s else s)).filter
        (fun s => s.match_id == mid)).find? (fun s => s.user_id == opp)
      = (((l.filter (fun s => s.match_id == mid)).find? (fun s => s.user_id == opp)).map
          (fun s => if s.user_id == uid then subStamp a b s else s)) := by
  induction l with
  | nil => rfl
  | cons s l ih =>
    by_cases hk : (s.match_id == mid && s.user_id == uid) = true
    · have hu : (s.user_id == uid) = true := ((Bool.and_eq_true _ _).mp hk).2
      have hm2 : (s.match_id == mid) = true := ((Bool.and_eq_true _ _).mp hk).1
      simp only [List.map_cons, hk, if_true, List.filter_cons]
      have : ((subStamp a b s).match_id == mid) = true := hm2
      simp only [this, hm2, if_true, List.find?]
      by_cases ho : (s.user_id == opp) = true
      · have hoo : ((subStamp a b s).user_id == opp) = true := ho
        rw [hoo, ho]
        simp only [Option.map_some']
        rw [if_pos hu]
      · have ho2 : (s.user_id == opp) = false := by simpa using ho
        have : ((subStamp a b s).user_id == opp) = false := ho2
        simp only [this, ho2]
        exact ih
    · have hk2 : (s.match_id == mid && s.user_id == uid) = false := by simpa using hk
      simp only [List.map_cons, hk2, Bool.false_eq_true, if_false, List.filter_cons]
      by_cases hmm : (s.match_id == mid) = true
      · simp only [hmm, if_true, List.find?]
        by_cases ho : (s.user_id == opp) = true
        · have hnu : (s.user_id == uid) = false := by
            by_cases h : (s.user_id == uid) = true
            · exfalso; apply hk; rw [Bool.and_eq_true]; exact ⟨hmm, h⟩
            · simpa using h
          have hnu2 : ¬(s.user_id = uid) := by simpa using hnu
          simp [ho, hnu2]
        · have ho2 : (s.user_id == opp) = false := by simpa using ho
          simp only [ho2]
          exact ih
      · have hmm2 : (s.match_id == mid) = false := by simpa using hmm
        simp only [hmm2, Bool.false_eq_true, if_false]
        exact ih

/-- Adding (or overwriting) the reporter submission does not change which
submission the opponent lookup finds. -/
theorem find_opponent_submission_after_add (w : World) (mid uid opp : Nat) (a b : Int)
    (hne : opp ≠ uid) :
    (get_score_submissions_for_match (add_score_submission w mid uid a b) mid).find?
        (fun s => s.user_id == opp)
      = (get_score_submissions_for_match w mid).find? (fun s => s.user_id == opp) := by
  unfold add_score_submission get_score_submissions_for_match
  by_cases hex : w.submissions.any (fun s => s.match_id == mid && s.user_id == uid) = true
  · simp only [hex, if_true]
    rw [show (fun (s : Submission) => if (s.match_id == mid && s.user_id == uid) = true then
        { s with score_p1 := a, score_p2 := b } else s) =
      (fun s => if s.match_id == mid && s.user_id == uid then subStamp a b s else s) from rfl]
    rw [find_user_after_upsert]
    cases hfind : (w.submissions.filter (fun s => s.match_id == mid)).find?
        (fun s => s.user_id == opp) with
    | none => rfl
    | some x =>
      have hx := List.find?_some hfind
      have hxo : x.user_id = opp := by simpa using hx
      have hxu : ¬((x.user_id == uid) = true) := by simp [hxo, hne]
      simp only [Option.map_some']
      rw [if_neg hxu]
  · have hex2 : w.submissions.any (fun s => s.match_id == mid && s.user_id == uid) = false := by
      simpa using hex
    simp only [hex2, Bool.false_eq_true, if_false]
    rw [List.filter_append, List.find?_append]
    have hsingle : (List.filter (fun s => s.match_id == mid)
        [({ match_id := mid, user_id := uid, score_p1 := a, score_p2 := b } : Submission)]).find?
        (fun s => s.user_id == opp) = none := by
      simp [List.filter, Ne.symm hne]
    rw [hsingle]
    cases (w.submissions.filter (fun s => s.match_id == mid)).find?
      (fun s => s.user_id == opp) <;> rfl

/-- After the upsert, the reporter submission for this match carries the
just-normalized score pair. -/
theorem find_reporter_submission_after_add (w : World) (mid uid : Nat) (a b : Int) :
    (get_score_submissions_for_match (add_score_submission w mid uid a b) mid).find?
        (fun s => s.user_id == uid)
      = some { match_id := mid, user_id := uid, score_p1 := a, score_p2 := b } := by
  unfold add_score_submission get_score_submissions_for_match
  by_cases hex : w.submissions.any (fun s => s.match_id == mid && s.user_id == uid) = true
  · simp only [hex, if_true]
    rw [show (fun (s : Submission) => if (s.match_id == mid && s.user_id == uid) = true then
        { s with score_p1 := a, score_p2 := b } else s) =
      (fun s => if s.match_id == mid && s.user_id == uid then subStamp a b s else s) from rfl]
    rw [find_user_after_upsert]
    have hexists : ∃ x, x ∈ w.submissions.filter (fun s => s.match_id == mid)
        ∧ (x.user_id == uid) = true := by
      rw [List.any_eq_true] at hex
      obtain ⟨x, hx, hxk⟩ := hex
      have h1 : (x.match_id == mid) = true := ((Bool.and_eq_true _ _).mp hxk).1
      have h2 : (x.user_id == uid) = true := ((Bool.and_eq_true _ _).mp hxk).2
      exact ⟨x, List.mem_filter.mpr ⟨hx, h1⟩, h2⟩
    have hsome : ((w.submissions.filter (fun s => s.match_id == mid)).find?
        (fun s => s.user_id == uid)).isSome := List.find?_isSome.mpr hexists
    cases hfind : (w.submissions.filter (fun s => s.match_id == mid)).find?
        (fun s => s.user_id == uid) with
    | none => rw [hfind] at hsome; cases hsome
    | some x =>
      have hxu : x.user_id = uid := by simpa using List.find?_some hfind
      have hxm : x.match_id = mid := by
        have := List.mem_filter.mp (List.mem_of_find?_eq_some hfind)
        simpa using this.2
      simp only [Option.map_some']
      rw [show (x.user_id == uid) = true from by simp [hxu]]
      simp only [if_true]
      unfold subStamp
      rw [show ({ x with score_p1 := a, score_p2 := b } : Submission)
        = { match_id := x.match_id, user_id := x.user_id, score_p1 := a, score_p2 := b } from rfl]
      rw [hxu, hxm]
  · have hex2 : w.submissions.any (fun s => s.match_id == mid && s.user_id == uid) = false := by
      simpa using hex
    simp only [hex2, Bool.false_eq_true, if_false]
    rw [List.filter_append, List.find?_append]
    have hnon : (w.submissions.filter (fun s => s.match_id == mid)).find?
        (fun s => s.user_id == uid) = none := by
      rw [List.find?_eq_none]
      intro x hx hp
      rw [List.mem_filter] at hx
      have : w.submissions.any (fun s => s.match_id == mid && s.user_id == uid) = true := by
        rw [List.any_eq_true]
        exact ⟨x, hx.1, by rw [Bool.and_eq_true]; exact ⟨hx.2, hp⟩⟩
      rw [this] at hex2
      cases hex2
    rw [hnon]
    simp [List.filter]

/-- `update_match_score_and_progress` succeeds whenever the match exists. -/
theorem update_match_score_fst_true (w : World) (mid : Nat) (score : Int × Int)
    (winner : Option Nat) (st : String)
    (h : (get_match_details_by_match_id w mid).isNone = false) :
    (update_match_score_and_progress w mid score winner st).1 = true := by
  unfold update_match_score_and_progress
  rw [h]
  simp only [Bool.false_eq_true, if_false]
  (repeat' split) <;> rfl

/-- The submission upsert only touches the submission store. -/
theorem add_score_submission_matchRows (w : World) (mid uid : Nat) (a b : Int) :
    (add_score_submission w mid uid a b).matchRows = w.matchRows := by
  unfold add_score_submission; split <;> rfl

theorem add_score_submission_tournaments (w : World) (mid uid : Nat) (a b : Int) :
    (add_score_submission w mid uid a b).tournaments = w.tournaments := by
  unfold add_score_submission; split <;> rfl

theorem add_score_submission_rr (w : World) (mid uid : Nat) (a b : Int) :
    (add_score_submission w mid uid a b).rr_standings = w.rr_standings := by
  unfold add_score_submission; split <;> rfl

theorem add_score_submission_gs (w : World) (mid uid : Nat) (a b : Int) :
    (add_score_submission w mid uid a b).gs_standings = w.gs_standings := by
  unfold add_score_submission; split <;> rfl

/-! ### C8: mismatched second report puts the match in conflict -/

/-- C8: when the second score submission for a match disagrees with the
first (compared in the common player1-vs-player2 frame), the match status
becomes `conflict`, no StandingsRow (league or group) of either player is
modified, and both submissions — the opponent one unchanged and the
reporter one just stored — remain in the store for organizer review. -/
theorem c8_mismatched_reports_conflict (w : World) (uid mid : Nat) (su so : Int)
    (md : MatchRec) (t : TournamentRec) (s : Submission)
    (hsu : 0 ≤ su) (hso : 0 ≤ so)
    (hm : get_match_details_by_match_id w mid = some md)
    (hstatus : md.status = "scheduled" ∨ md.status = "pending_opponent_report")
    (hp1 : pyTruthy md.player1_user_id = true)
    (hp2 : pyTruthy md.player2_user_id = true)
    (hdistinct : md.player1_user_id.getD 0 ≠ md.player2_user_id.getD 0)
    (hpart : (uid == md.player1_user_id.getD 0) = true
      ∨ (uid == md.player2_user_id.getD 0) = true)
    (ht : get_tournament_details_by_id w md.tournament_id = some t)
    (hopp : (get_score_submissions_for_match w mid).find?
        (fun x => x.user_id == (if uid == md.player1_user_id.getD 0
          then md.player2_user_id.getD 0 else md.player1_user_id.getD 0)) = some s)
    (hdis : (((if uid == md.player1_user_id.getD 0 then su else so) == s.score_p1)
          && ((if uid == md.player1_user_id.getD 0 then so else su) == s.score_p2)) = false) :
    report_score_command w uid mid su so =
      (ReportResult.conflictDetected,
        setMatchStatus (add_score_submission w mid uid
          (if uid == md.player1_user_id.getD 0 then su else so)
          (if uid == md.player1_user_id.getD 0 then so else su)) mid "conflict") ∧
    (report_score_command w uid mid su so).2.rr_standings = w.rr_standings ∧
    (report_score_command w uid mid su so).2.gs_standings = w.gs_standings ∧
    get_match_details_by_match_id (report_score_command w uid mid su so).2 mid
      = some { md with status := "conflict" } ∧
    (get_score_submissions_for_match (report_score_command w uid mid su so).2 mid).find?
        (fun x => x.user_id == (if uid == md.player1_user_id.getD 0
          then md.player2_user_id.getD 0 else md.player1_user_id.getD 0)) = some s ∧
    (get_score_submissions_for_match (report_score_command w uid mid su so).2 mid).find?
        (fun x => x.user_id == uid)
      = some { match_id := mid, user_id := uid,
               score_p1 := if uid == md.player1_user_id.getD 0 then su else so,
               score_p2 := if uid == md.player1_user_id.getD 0 then so else su } := by
  have h0 : (decide (su < 0) || decide (so < 0)) = false := by
    simp only [Bool.or_eq_false_iff, decide_eq_false_iff_not, not_lt]
    exact ⟨hsu, hso⟩
  have hstf : (md.status == "completed" || md.status == "bye" || md.status == "cancelled"
      || md.status == "conflict") = false := by
    rcases hstatus with h | h <;> simp [h]
  have hps : ((!(pyTruthy md.player1_user_id)) || (!(pyTruthy md.player2_user_id))) = false := by
    simp [hp1, hp2]
  -- the opponent key and normalized scores under each reporter side
  by_cases hr1 : (uid == md.player1_user_id.getD 0) = true
  · -- the reporter is player 1
    have hne : (if uid == md.player1_user_id.getD 0
        then md.player2_user_id.getD 0 else md.player1_user_id.getD 0) ≠ uid := by
      rw [if_pos hr1]
      have : uid = md.player1_user_id.getD 0 := by simpa using hr1
      rw [this]
      exact fun hcc => hdistinct hcc.symm
    simp only [hr1, if_true] at hopp hdis hne
    have hoppadd := find_opponent_submission_after_add w mid uid
      (md.player2_user_id.getD 0) su so (by simpa using hne)
    rw [hopp] at hoppadd
    have ht1 : get_tournament_details_by_id (add_score_submission w mid uid su so)
        md.tournament_id = some t := by
      unfold get_tournament_details_by_id
      rw [add_score_submission_tournaments]
      exact ht
    have hbody : report_score_command w uid mid su so =
        (ReportResult.conflictDetected,
          setMatchStatus (add_score_submission w mid uid su so) mid "conflict") := by
      unfold report_score_command
      simp only [h0, Bool.false_eq_true, if_false, hm, hstf, hps, hr1, if_true,
        Bool.not_true, Bool.false_and, Bool.and_false]
      rw [hoppadd]
      simp only [ht1]
      rw [hdis]
      simp
    have hmw1 : get_match_details_by_match_id (add_score_submission w mid uid su so) mid
        = some md := by
      unfold get_match_details_by_match_id
      rw [add_score_submission_matchRows]
      exact hm
    refine ⟨by rw [hbody]; simp [hr1], ?_, ?_, ?_, ?_, ?_⟩
    · rw [hbody]
      show (add_score_submission w mid uid su so).rr_standings = w.rr_standings
      exact add_score_submission_rr w mid uid su so
    · rw [hbody]
      show (add_score_submission w mid uid su so).gs_standings = w.gs_standings
      exact add_score_submission_gs w mid uid su so
    · rw [hbody]
      have h5 := get_match_after_set (add_score_submission w mid uid su so) mid
        (fun x => { x with status := "conflict" }) (fun m => rfl)
      rw [hmw1] at h5
      simpa [setMatchStatus] using h5
    · rw [hbody]
      simp only [hr1, if_true]
      exact hoppadd
    · rw [hbody]
      simp only [hr1, if_true]
      exact find_reporter_submission_after_add w mid uid su so
  · -- the reporter is player 2
    have hr1f : (uid == md.player1_user_id.getD 0) = false := by simpa using hr1
    have hr2 : (uid == md.player2_user_id.getD 0) = true := by
      rcases hpart with h | h
      · rw [h] at hr1f; cases hr1f
      · exact h
    have hne : (if uid == md.player1_user_id.getD 0
        then md.player2_user_id.getD 0 else md.player1_user_id.getD 0) ≠ uid := by
      rw [if_neg (by simp [hr1f])]
      intro hcc
      rw [hcc] at hr1f
      simp at hr1f
    simp only [hr1f, Bool.false_eq_true, if_false] at hopp hdis hne
    have hoppadd := find_opponent_submission_after_add w mid uid
      (md.player1_user_id.getD 0) so su (by simpa using hne)
    rw [hopp] at hoppadd
    have ht1 : get_tournament_details_by_id (add_score_submission w mid uid so su)
        md.tournament_id = some t := by
      unfold get_tournament_details_by_id
      rw [add_score_submission_tournaments]
      exact ht
    have hbody : report_score_command w uid mid su so =
        (ReportResult.conflictDetected,
          setMatchStatus (add_score_submission w mid uid so su) mid "conflict") := by
      unfold report_score_command
      simp only [h0, Bool.false_eq_true, if_false, hm, hstf, hps, hr1f, hr2, if_true,
        Bool.not_true, Bool.not_false, Bool.true_and, Bool.and_false,
        Bool.false_and, Bool.and_true]
      rw [hoppadd]
      simp only [ht1]
      rw [hdis]
      simp
    have hmw1 : get_match_details_by_match_id (add_score_submission w mid uid so su) mid
        = some md := by
      unfold get_match_details_by_match_id
      rw [add_score_submission_matchRows]
      exact hm
    refine ⟨by rw [hbody]; simp [hr1f], ?_, ?_, ?_, ?_, ?_⟩
    · rw [hbody]
      show (add_score_submission w mid uid so su).rr_standings = w.rr_standings
      exact add_score_submission_rr w mid uid so su
    · rw [hbody]
      show (add_score_submission w mid uid so su).gs_standings = w.gs_standings
      exact add_score_submission_gs w mid uid so su
    · rw [hbody]
      have h5 := get_match_after_set (add_score_submission w mid uid so su) mid
        (fun x => { x with status := "conflict" }) (fun m => rfl)
      rw [hmw1] at h5
      simpa [setMatchStatus] using h5
    · rw [hbody]
      simp only [hr1f, Bool.false_eq_true, if_false]
      exact hoppadd
    · rw [hbody]
      simp only [hr1f, Bool.false_eq_true, if_false]
      exact find_reporter_submission_after_add w mid uid so su

/-- A world where the opponent (user 2) has already submitted 0-3 for
match 1; the reporter (user 1) will now submit 2-1, a mismatch. -/
def c8World : World :=
  { tournaments := [{ id := "T", creator_id := 9, name := "t",
                      type := "Round Robin", status := "ongoing" }],
    matchRows := [{ match_id := 1, tournament_id := "T", round_number := 1,
                    match_in_round_index := 1, player1_user_id := some 1,
                    player2_user_id := some 2, status := "pending_opponent_report" }],
    submissions := [{ match_id := 1, user_id := 2, score_p1 := 0, score_p2 := 3 }] }

/-- Witness for `c8_mismatched_reports_conflict` on `c8World`. -/
theorem c8_witness :
    report_score_command c8World 1 1 2 1 =
      (ReportResult.conflictDetected,
        setMatchStatus (add_score_submission c8World 1 1 2 1) 1 "conflict") := by
  have h := (c8_mismatched_reports_conflict c8World 1 1 2 1
    { match_id := 1, tournament_id := "T", round_number := 1,
      match_in_round_index := 1, player1_user_id := some 1,
      player2_user_id := some 2, status := "pending_opponent_report" }
    { id := "T", creator_id := 9, name := "t",
      type := "Round Robin", status := "ongoing" }
    { match_id := 1, user_id := 2, score_p1 := 0, score_p2 := 3 }
    (by decide) (by decide) (by decide) (by decide) (by decide) (by decide)
    (by decide) (by decide) (by decide) (by decide) (by decide)).1
  simpa using h

/-! ### C7: where a drawn score is rejected -/

/-- A Swiss tournament in its league phase (status `ongoing`) with a
league match in conflict. -/
def c7World : World :=
  { tournaments := [{ id := "W", creator_id := 9, name := "w", type := "Swiss",
                      status := "ongoing", num_swiss_rounds := 3,
                      current_swiss_round := 1 }],
    matchRows := [{ match_id := 5, tournament_id := "W", round_number := 1,
                    match_in_round_index := 1, player1_user_id := some 1,
                    player2_user_id := some 2, status := "conflict" }] }

/-- C7 counterexample: an organizer-resolved draw for a Swiss league-phase
match (tournament status `ongoing`, not `ongoing_knockout`) is rejected by
`conflict_resolve_command`, although the claim says draws in Swiss league
matches are accepted: the resolve path guards on
`type in [GroupKnockout, Swiss] and group_id is None` (main.py 5744-5750),
and every Swiss match has no group id. -/
theorem c7_counterexample :
    (conflict_resolve_command c7World 9 5 1 1).1 = ResolveResult.tieRejected ∧
    (conflict_resolve_command c7World 9 5 1 1).2 = c7World ∧
    (get_tournament_details_by_id c7World "W").map (fun t => (t.type, t.status))
      = some ("Swiss", "ongoing") := by decide

/-- C7 as amended: a drawn score is rejected on the *report* path exactly
when the match is in a knockout phase as the claim defines it (Single
Elimination, or GroupKnockout with no group id, or tournament status
`ongoing_knockout`); on the *organizer-resolve* path, however, a draw is
rejected exactly when the format is Single Elimination, or the format is
GroupKnockout or Swiss and the match has no group id — so every Swiss
draw, league phase included, is rejected there.  In the non-rejected
cases the draw is accepted and the match is finalized. -/
theorem c7_amended_draw_guards :
    (∀ (w : World) (uid mid : Nat) (c : Int) (md : MatchRec) (t : TournamentRec)
      (s : Submission),
      0 ≤ c →
      get_match_details_by_match_id w mid = some md →
      (md.status = "scheduled" ∨ md.status = "pending_opponent_report") →
      pyTruthy md.player1_user_id = true →
      pyTruthy md.player2_user_id = true →
      md.player1_user_id.getD 0 ≠ md.player2_user_id.getD 0 →
      ((uid == md.player1_user_id.getD 0) = true
        ∨ (uid == md.player2_user_id.getD 0) = true) →
      get_tournament_details_by_id w md.tournament_id = some t →
      (get_score_submissions_for_match w mid).find?
        (fun x => x.user_id == (if uid == md.player1_user_id.getD 0
          then md.player2_user_id.getD 0 else md.player1_user_id.getD 0)) = some s →
      s.score_p1 = c → s.score_p2 = c →
      report_score_command w uid mid c c =
        (if (t.type == "Single Elimination")
            || (t.type == "Group Stage & Knockout" && md.group_id == none)
            || (t.status == "ongoing_knockout") then
          (ReportResult.drawRejected,
            setMatchStatus (add_score_submission w mid uid c c) mid "conflict")
        else
          (ReportResult.finalized,
            clear_score_submissions_for_match
              (update_match_score_and_progress (add_score_submission w mid uid c c)
                mid (c, c) none "completed").2 mid))) ∧
    (∀ (w : World) (uid mid : Nat) (c : Int) (md : MatchRec) (t : TournamentRec),
      0 ≤ c →
      get_match_details_by_match_id w mid = some md →
      get_tournament_details_by_id w md.tournament_id = some t →
      t.creator_id = uid →
      (md.status = "conflict" ∨ md.status = "scheduled"
        ∨ md.status = "pending_opponent_report") →
      pyTruthy md.player1_user_id = true →
      pyTruthy md.player2_user_id = true →
      conflict_resolve_command w uid mid c c =
        (if (t.type == "Single Elimination")
            || ((t.type == "Group Stage & Knockout" || t.type == "Swiss")
                && md.group_id == none) then
          (ResolveResult.tieRejected, w)
        else
          (ResolveResult.resolved,
            clear_score_submissions_for_match
              (update_match_score_and_progress w mid (c, c) none "completed").2 mid))) := by
  constructor
  · intro w uid mid c md t s hc hm hstatus hp1 hp2 hdistinct hpart ht hopp hs1 hs2
    have h0 : (decide (c < 0) || decide (c < 0)) = false := by
      simp only [Bool.or_self, decide_eq_false_iff_not, not_lt]
      exact hc
    have hstf : (md.status == "completed" || md.status == "bye" || md.status == "cancelled"
        || md.status == "conflict") = false := by
      rcases hstatus with h | h <;> simp [h]
    have hps : ((!(pyTruthy md.player1_user_id)) || (!(pyTruthy md.player2_user_id)))
        = false := by simp [hp1, hp2]
    have hagree : ((c == s.score_p1) && (c == s.score_p2)) = true := by
      simp [hs1, hs2]
    have hwnone : ¬((c : Int) > c) := lt_irrefl c
    by_cases hr1 : (uid == md.player1_user_id.getD 0) = true
    · simp only [hr1, if_true] at hopp
      have hne : md.player2_user_id.getD 0 ≠ uid := by
        have : uid = md.player1_user_id.getD 0 := by simpa using hr1
        rw [this]
        exact fun hcc => hdistinct hcc.symm
      have hoppadd := find_opponent_submission_after_add w mid uid
        (md.player2_user_id.getD 0) c c hne
      rw [hopp] at hoppadd
      have ht1 : get_tournament_details_by_id (add_score_submission w mid uid c c)
          md.tournament_id = some t := by
        unfold get_tournament_details_by_id
        rw [add_score_submission_tournaments]
        exact ht
      have hmw1 : (get_match_details_by_match_id (add_score_submission w mid uid c c) mid).isNone
          = false := by
        unfold get_match_details_by_match_id
        rw [add_score_submission_matchRows]
        rw [show w.matchRows.find? (fun m => m.match_id == mid) = some md from hm]
        rfl
      unfold report_score_command
      simp only [h0, Bool.false_eq_true, if_false, hm, hstf, hps, hr1, if_true,
        Bool.not_true, Bool.false_and, Bool.and_false, ite_self]
      rw [hoppadd]
      simp only [ht1, hagree, if_true]
      simp only [hwnone, if_false, Option.some.injEq, ite_false]
      by_cases hK : ((t.type == "Single Elimination")
          || (t.type == "Group Stage & Knockout" && md.group_id == none)
          || (t.status == "ongoing_knockout")) = true
      · simp only [hK, Bool.true_and, Bool.and_true, if_true]
        simp
      · have hK2 : ((t.type == "Single Elimination")
            || (t.type == "Group Stage & Knockout" && md.group_id == none)
            || (t.status == "ongoing_knockout")) = false := by simpa using hK
        simp only [hK2, Bool.and_false, Bool.false_eq_true, if_false]
        rw [update_match_score_fst_true _ _ _ _ _ hmw1]
        simp
    · have hr1f : (uid == md.player1_user_id.getD 0) = false := by simpa using hr1
      have hr2 : (uid == md.player2_user_id.getD 0) = true := by
        rcases hpart with h | h
        · rw [h] at hr1f; cases hr1f
        · exact h
      simp only [hr1f, Bool.false_eq_true, if_false] at hopp
      have hne : md.player1_user_id.getD 0 ≠ uid := by
        intro hcc
        rw [hcc] at hr1f
        simp at hr1f
      have hoppadd := find_opponent_submission_after_add w mid uid
        (md.player1_user_id.getD 0) c c hne
      rw [hopp] at hoppadd
      have ht1 : get_tournament_details_by_id (add_score_submission w mid uid c c)
          md.tournament_id = some t := by
        unfold get_tournament_details_by_id
        rw [add_score_submission_tournaments]
        exact ht
      have hmw1 : (get_match_details_by_match_id (add_score_submission w mid uid c c) mid).isNone
          = false := by
        unfold get_match_details_by_match_id
        rw [add_score_submission_matchRows]
        rw [show w.matchRows.find? (fun m => m.match_id == mid) = some md from hm]
        rfl
      unfold report_score_command
      simp only [h0, Bool.false_eq_true, if_false, hm, hstf, hps, hr1f, hr2, if_true,
        Bool.not_true, Bool.not_false, Bool.true_and, Bool.and_false, Bool.false_and,
        Bool.and_true, ite_self]
      rw [hoppadd]
      simp only [ht1, hagree, if_true]
      simp only [hwnone, if_false, Option.some.injEq, ite_false]
      by_cases hK : ((t.type == "Single Elimination")
          || (t.type == "Group Stage & Knockout" && md.group_id == none)
          || (t.status == "ongoing_knockout")) = true
      · simp only [hK, Bool.true_and, Bool.and_true, if_true]
        simp
      · have hK2 : ((t.type == "Single Elimination")
            || (t.type == "Group Stage & Knockout" && md.group_id == none)
            || (t.status == "ongoing_knockout")) = false := by simpa using hK
        simp only [hK2, Bool.and_false, Bool.false_eq_true, if_false]
        rw [update_match_score_fst_true _ _ _ _ _ hmw1]
        simp
  · intro w uid mid c md t hc hm ht hcr hstatus hp1 hp2
    have h0 : (decide (c < 0) || decide (c < 0)) = false := by
      simp only [Bool.or_self, decide_eq_false_iff_not, not_lt]
      exact hc
    have hstt : (md.status == "conflict" || md.status == "scheduled"
        || md.status == "pending_opponent_report") = true := by
      rcases hstatus with h | h | h <;> simp [h]
    have hps : ((!(pyTruthy md.player1_user_id)) || (!(pyTruthy md.player2_user_id)))
        = false := by simp [hp1, hp2]
    have hwnone : ¬((c : Int) > c) := lt_irrefl c
    have hmw : (get_match_details_by_match_id w mid).isNone = false := by
      rw [hm]; rfl
    unfold conflict_resolve_command
    simp only [h0, Bool.false_eq_true, if_false, hm, ht, hcr, ne_eq,
      not_true_eq_false, if_false, hstt, Bool.not_true, hps]
    simp only [hwnone, if_false, ite_false, Option.some.injEq]
    by_cases hK : ((t.type == "Single Elimination")
        || ((t.type == "Group Stage & Knockout" || t.type == "Swiss")
            && md.group_id == none)) = true
    · simp only [hK, Bool.true_and, Bool.and_true, if_true]
      simp
    · have hK2 : ((t.type == "Single Elimination")
          || ((t.type == "Group Stage & Knockout" || t.type == "Swiss")
              && md.group_id == none)) = false := by simpa using hK
      simp only [hK2, Bool.and_false, Bool.false_eq_true, if_false]
      rw [update_match_score_fst_true _ _ _ _ _ hmw]
      simp

/-- A GroupKnockout group match with one agreeing draw submission stored,
and the same world with the match in conflict, to witness both C7 paths:
group-stage draws are accepted on both. -/
def c7WorldA : World :=
  { tournaments := [{ id := "G", creator_id := 9, name := "g",
                      type := "Group Stage & Knockout", status := "ongoing" }],
    matchRows := [{ match_id := 5, tournament_id := "G", round_number := 1,
                    match_in_round_index := 1, player1_user_id := some 1,
                    player2_user_id := some 2, status := "pending_opponent_report",
                    group_id := some 1 }],
    submissions := [{ match_id := 5, user_id := 2, score_p1 := 1, score_p2 := 1 }] }

/-- `c7WorldA` with the match in the conflict state. -/
def c7WorldB : World :=
  { tournaments := [{ id := "G", creator_id := 9, name := "g",
                      type := "Group Stage & Knockout", status := "ongoing" }],
    matchRows := [{ match_id := 5, tournament_id := "G", round_number := 1,
                    match_in_round_index := 1, player1_user_id := some 1,
                    player2_user_id := some 2, status := "conflict",
                    group_id := some 1 }] }

/-- Witness for `c7_amended_draw_guards`: a group-stage draw is accepted on
both the report and the resolve path. -/
theorem c7_witness :
    (report_score_command c7WorldA 1 5 1 1).1 = ReportResult.finalized ∧
    (conflict_resolve_command c7WorldB 9 5 1 1).1 = ResolveResult.resolved := by
  constructor
  · have h := c7_amended_draw_guards.1 c7WorldA 1 5 1
      { match_id := 5, tournament_id := "G", round_number := 1,
        match_in_round_index := 1, player1_user_id := some 1,
        player2_user_id := some 2, status := "pending_opponent_report",
        group_id := some 1 }
      { id := "G", creator_id := 9, name := "g",
        type := "Group Stage & Knockout", status := "ongoing" }
      { match_id := 5, user_id := 2, score_p1 := 1, score_p2 := 1 }
      (by decide) (by decide) (by decide) (by decide) (by decide) (by decide)
      (by decide) (by decide) (by decide) (by decide) (by decide)
    rw [h]
    rfl
  · have h := c7_amended_draw_guards.2 c7WorldB 9 5 1
      { match_id := 5, tournament_id := "G", round_number := 1,
        match_in_round_index := 1, player1_user_id := some 1,
        player2_user_id := some 2, status := "conflict", group_id := some 1 }
      { id := "G", creator_id := 9, name := "g",
        type := "Group Stage & Knockout", status := "ongoing" }
      (by decide) (by decide) (by decide) (by decide) (by decide) (by decide)
      (by decide)
    rw [h]
    rfl

/-! ### C3: unavoidable Swiss rematches turn into byes, not pairings -/

/-- A Swiss world where players 1 and 2 have already played each other, so
the next round cannot pair anyone without a rematch. -/
def c3World : World :=
  { tournaments := [{ id := "W", creator_id := 9, name := "w", type := "Swiss",
                      status := "ongoing", num_swiss_rounds := 3,
                      current_swiss_round := 1 }],
    matchRows := [{ match_id := 1, tournament_id := "W", round_number := 1,
                    match_in_round_index := 1,
                    player1_user_id := some 1, player1_username := some "A",
                    player2_user_id := some 2, player2_username := some "B",
                    status := "completed", winner_user_id := some 1,
                    score := some (ScoreVal.nums 1 0) }] }

/-- C3 counterexample: with only players 1 and 2 left to pair and a prior
completed meeting between them, the engine does *not* pair them into a
scheduled rematch — it gives each of them a bye (source lines 1244-1271),
contradicting the claim that the rematch is accepted. -/
theorem c3_counterexample :
    has_played_against (some 1) (some 2)
      (get_matches_for_tournament c3World "W" (some "completed") none none) = true ∧
    (generate_swiss_round_matches c3World "W" 2
        [⟨some 1, "A"⟩, ⟨some 2, "B"⟩]).1.map
        (fun m => (m.status, m.player1_user_id, m.player2_user_id))
      = [("bye", some 2, none), ("bye", some 1, none)] := by decide

theorem findOpponentIdx_none (p1 : SwissPlayer) (hist : List MatchRec)
    (paired : List (Option Nat)) :
    ∀ (l : List SwissPlayer) (i : Nat),
      (∀ p2 ∈ l, has_played_against p1.user_id p2.user_id hist = true) →
      findOpponentIdx p1 hist paired l i = none
  | [], _, _ => rfl
  | p2 :: rest, i, h => by
      have hp2 := h p2 (List.mem_cons_self _ _)
      have ih := findOpponentIdx_none p1 hist paired rest (i + 1)
        (fun q hq => h q (List.mem_cons_of_mem _ hq))
      simp only [findOpponentIdx]
      split
      · exact ih
      · simp only [hp2, Bool.not_true, Bool.false_eq_true, if_false]
        exact ih

theorem swissPairLoop_all_byes (t_id : String) (rn : Nat) (hist : List MatchRec) :
    ∀ (fuel : Nat) (pool : List SwissPlayer) (paired : List (Option Nat)) (idx : Nat)
      (acc : List MatchRec) (w : World),
      pool.Pairwise (fun p q => has_played_against p.user_id q.user_id hist = true) →
      ∀ m ∈ (swissPairLoop t_id rn hist fuel pool paired idx acc w).1,
        m ∈ acc ∨ (m.status = "bye" ∧ m.player2_user_id = none)
  | fuel, [], paired, idx, acc, w => by
      intro _ m hm
      cases fuel <;> exact Or.inl hm
  | 0, p1 :: rest, paired, idx, acc, w => by
      intro _ m hm
      exact Or.inl hm
  | fuel + 1, p1 :: rest, paired, idx, acc, w => by
      intro hpw
      have hplayed : ∀ q ∈ rest, has_played_against p1.user_id q.user_id hist = true :=
        (List.pairwise_cons.mp hpw).1
      have hpwr := (List.pairwise_cons.mp hpw).2
      simp only [swissPairLoop]
      split
      · exact swissPairLoop_all_byes t_id rn hist fuel rest paired idx acc w hpwr
      · simp only [findOpponentIdx_none p1 hist paired rest 0 hplayed]
        split
        · intro m hm
          rcases swissPairLoop_all_byes t_id rn hist fuel rest _ _ _ _ hpwr m hm with
            hin | hbye
          · rcases List.mem_append.mp hin with h | h
            · exact Or.inl h
            · right
              simp only [List.mem_singleton] at h
              subst h
              exact ⟨rfl, rfl⟩
          · exact Or.inr hbye
        · exact swissPairLoop_all_byes t_id rn hist fuel rest paired idx acc w hpwr

/-- C3 as amended: when greedy pairing cannot avoid a rematch — every two
players still in the pool have already met — the Swiss pairing loop does
not schedule any match at all: every entry of the produced round is a bye
(with an empty second slot, and its synthetic win applied to standings by
the loop).  In particular the last two players, if they have already met,
each receive a bye instead of being paired in a rematch. -/
theorem c3_amended_byes_on_unavoidable_rematch (t_id : String) (rn : Nat)
    (hist : List MatchRec) (pool : List SwissPlayer) (w : World)
    (hall : pool.Pairwise
      (fun p q => has_played_against p.user_id q.user_id hist = true)) :
    ∀ m ∈ (swissPairLoop t_id rn hist pool.length pool [] 0 [] w).1,
      m.status = "bye" ∧ m.player2_user_id = none := by
  intro m hm
  rcases swissPairLoop_all_byes t_id rn hist pool.length pool [] 0 [] w hall m hm with
    hin | h
  · cases hin
  · exact h

/-- Witness for `c3_amended_byes_on_unavoidable_rematch` on the two-player
pool of `c3World`. -/
theorem c3_amended_witness :
    ((swissPairLoop "W" 2
        (get_matches_for_tournament c3World "W" (some "completed") none none)
        ([⟨some 2, "B"⟩, ⟨some 1, "A"⟩] : List SwissPlayer).length
        [⟨some 2, "B"⟩, ⟨some 1, "A"⟩] [] 0 [] c3World).1.all
      (fun m => m.status == "bye" && m.player2_user_id == none)) = true := by
  rw [List.all_eq_true]
  intro m hm
  have h := c3_amended_byes_on_unavoidable_rematch "W" 2
    (get_matches_for_tournament c3World "W" (some "completed") none none)
    [⟨some 2, "B"⟩, ⟨some 1, "A"⟩] c3World (by decide) m hm
  simp [h.1, h.2]

/-! ### C5: bracket match counts and the next-match tree -/

/-- Number of matches plus number of advancing nodes produced by round 1
equals the number of real participants: a real-vs-real pair gives one
match and one node, a real-vs-BYE pair gives one node, BYE-vs-BYE gives
nothing, and a real leftover gives one node. -/
theorem bracketRound1_count (t_id : String) :
    ∀ (entries : List PData) (idx ctr : Nat),
      (bracketRound1 t_id entries idx ctr).nodes.length
        + (bracketRound1 t_id entries idx ctr).ms.length
        = entries.countP (fun e => e.1.isSome)
  | [], _, _ => rfl
  | [p1], idx, ctr => by
      cases h : p1.1 <;> simp [bracketRound1, h, List.countP_cons]
  | p1 :: p2 :: rest, idx, ctr => by
      cases h1 : p1.1 <;> cases h2 : p2.1
      · have hr := bracketRound1_count t_id rest (idx + 1) ctr
        simp only [bracketRound1, h1, h2, List.length_cons, List.countP_cons,
          Option.isSome_none, Option.isSome_some, Bool.false_eq_true, if_false, if_true]
        omega
      · have hr := bracketRound1_count t_id rest (idx + 1) ctr
        simp only [bracketRound1, h1, h2, List.length_cons, List.countP_cons,
          Option.isSome_none, Option.isSome_some, Bool.false_eq_true, if_false, if_true]
        omega
      · have hr := bracketRound1_count t_id rest (idx + 1) ctr
        simp only [bracketRound1, h1, h2, List.length_cons, List.countP_cons,
          Option.isSome_none, Option.isSome_some, Bool.false_eq_true, if_false, if_true]
        omega
      · have hr := bracketRound1_count t_id rest (idx + 1) (ctr + 1)
        simp only [bracketRound1, h1, h2, List.length_cons, List.countP_cons,
          Option.isSome_none, Option.isSome_some, Bool.false_eq_true, if_false, if_true]
        omega

/-- Every match node of round 1 corresponds to one created match. -/
theorem bracketRound1_matchNodes (t_id : String) :
    ∀ (entries : List PData) (idx ctr : Nat),
      ((bracketRound1 t_id entries idx ctr).nodes.countP
          (fun n => match n with | BNode.matchNode _ => true | _ => false))
        = (bracketRound1 t_id entries idx ctr).ms.length
  | [], _, _ => rfl
  | [p1], idx, ctr => by
      cases h : p1.1 <;> simp [bracketRound1, h]
  | p1 :: p2 :: rest, idx, ctr => by
      cases h1 : p1.1 <;> cases h2 : p2.1
      · have hr := bracketRound1_matchNodes t_id rest (idx + 1) ctr
        simp only [bracketRound1, h1, h2, List.countP_cons, List.length_cons]
        simp [hr]
      · have hr := bracketRound1_matchNodes t_id rest (idx + 1) ctr
        simp only [bracketRound1, h1, h2, List.countP_cons, List.length_cons]
        simp [hr]
      · have hr := bracketRound1_matchNodes t_id rest (idx + 1) ctr
        simp only [bracketRound1, h1, h2, List.countP_cons, List.length_cons]
        simp [hr]
      · have hr := bracketRound1_matchNodes t_id rest (idx + 1) (ctr + 1)
        simp only [bracketRound1, h1, h2, List.countP_cons, List.length_cons]
        simp [hr]

/-- One shell round appends exactly `k / 2` matches to the store. -/
theorem bracketShellRound_store_length (t_id : String) (rn : Nat) :
    ∀ (ns : List BNode) (idx : Nat) (st : BuildSt),
      (bracketShellRound t_id rn ns idx st).2.store.length
        = st.store.length + ns.length / 2
  | [], _, _ => by simp [bracketShellRound]
  | [n], _, _ => by simp [bracketShellRound]
  | n1 :: n2 :: rest, idx, st => by
      have ih := bracketShellRound_store_length t_id rn rest (idx + 1)
      simp only [bracketShellRound, ih]
      have hlink : ∀ (store : List MatchRec) (n : BNode) (i : Nat),
          (linkToShell store n i).length = store.length := by
        intro store n i
        cases n <;> simp [linkToShell, setMatchRows]
      simp only [hlink, List.length_append, List.length_cons, List.length_nil]
      omega

/-- The shell loop turns `k ≥ 1` advancing nodes into `k - 1` additional
matches. -/
theorem bracketShellLoop_store_length (t_id : String) :
    ∀ (k : Nat) (ns : List BNode) (rn : Nat) (st : BuildSt), ns.length ≤ k →
      1 ≤ ns.length →
      (bracketShellLoop t_id ns rn st).2.store.length
        = st.store.length + (ns.length - 1) := by
  intro k
  induction k with
  | zero =>
      intro ns rn st h1 h2
      omega
  | succ k ih =>
      intro ns rn st hk h1
      by_cases hle : ns.length ≤ 1
      · rw [bracketShellLoop.eq_def, if_pos hle]
        show st.store.length = st.store.length + (ns.length - 1)
        omega
      · rw [bracketShellLoop.eq_def, if_neg hle]
        simp only
        have hlen := bracketShellRound_fst_length t_id (rn + 1) ns 0 st
        have hstore := bracketShellRound_store_length t_id (rn + 1) ns 0 st
        have hrec := ih (bracketShellRound t_id (rn + 1) ns 0 st).1 (rn + 2)
          (bracketShellRound t_id (rn + 1) ns 0 st).2
          (by rw [hlen]; omega) (by rw [hlen]; omega)
        omega

/-- Total store size of the whole bracket build: number of real
participants minus one (for at least one real participant). -/
theorem buildBracket_store_length (t_id : String) (entries : List PData) (startId : Nat)
    (h1 : 1 ≤ entries.countP (fun e => e.1.isSome)) :
    (buildBracket t_id entries startId).2.store.length
      = entries.countP (fun e => e.1.isSome) - 1 := by
  unfold buildBracket
  have hcount := bracketRound1_count t_id entries 0 startId
  have hmn := bracketRound1_matchNodes t_id entries 0 startId
  have hmle : (bracketRound1 t_id entries 0 startId).ms.length
      ≤ (bracketRound1 t_id entries 0 startId).nodes.length := by
    rw [← hmn]
    exact List.countP_le_length _
  have hnodes : 1 ≤ (bracketRound1 t_id entries 0 startId).nodes.length := by omega
  rw [bracketShellLoop_store_length t_id
    (bracketRound1 t_id entries 0 startId).nodes.length
    (bracketRound1 t_id entries 0 startId).nodes 1
    { nextId := (bracketRound1 t_id entries 0 startId).ctr,
      store := (bracketRound1 t_id entries 0 startId).ms }
    (le_refl _) hnodes]
  simp only
  omega

/-- The match ids of a store, in store order. -/
def storeIds (store : List MatchRec) : List Nat := store.map (fun m => m.match_id)

/-- The ids of the match nodes of an advancing-node list, in order. -/
def nodeIds : List BNode → List Nat
  | [] => []
  | BNode.matchNode i :: rest => i :: nodeIds rest
  | BNode.playerNode _ _ :: rest => nodeIds rest

theorem nodeIds_cons_match (i : Nat) (rest : List BNode) :
    nodeIds (BNode.matchNode i :: rest) = i :: nodeIds rest := rfl

theorem nodeIds_cons_player (u : Nat) (un : String) (rest : List BNode) :
    nodeIds (BNode.playerNode u un :: rest) = nodeIds rest := rfl

theorem nodeIds_pair (n1 n2 : BNode) (rest : List BNode) :
    nodeIds (n1 :: n2 :: rest)
      = (nodeIds [n1] ++ nodeIds [n2]) ++ nodeIds rest := by
  cases n1 <;> cases n2 <;> simp [nodeIds]

/-- Invariant of the shell construction: store ids strictly increase and
stay below the id counter; the pending ids (shells already emitted in the
current round, then the ids behind the still-active nodes) are distinct
ids of stored matches; a stored match is unlinked exactly when it is
pending, and otherwise links to a strictly later stored match. -/
def BInv (pending : List Nat) (st : BuildSt) : Prop :=
  (storeIds st.store).Pairwise (· < ·)
  ∧ (∀ i ∈ storeIds st.store, i < st.nextId)
  ∧ pending.Nodup
  ∧ (∀ i ∈ pending, i ∈ storeIds st.store)
  ∧ ∀ m ∈ st.store,
      (m.match_id ∈ pending → m.next_match_id = none)
      ∧ (m.match_id ∉ pending →
          ∃ j, m.next_match_id = some j ∧ j ∈ storeIds st.store ∧ m.match_id < j)

theorem mkShell_match_id (t_id : String) (rn idx : Nat) (n1 n2 : BNode) (ctr : Nat) :
    (mkShell t_id rn idx n1 n2 ctr).match_id = ctr := by
  simp only [mkShell]
  (repeat' split) <;> rfl

theorem mkShell_next (t_id : String) (rn idx : Nat) (n1 n2 : BNode) (ctr : Nat) :
    (mkShell t_id rn idx n1 n2 ctr).next_match_id = none := by
  simp only [mkShell]
  (repeat' split) <;> rfl

theorem storeIds_linkToShell (store : List MatchRec) (n : BNode) (i : Nat) :
    storeIds (linkToShell store n i) = storeIds store := by
  cases n with
  | matchNode mid =>
      simp only [linkToShell, setMatchRows, storeIds, List.map_map]
      apply List.map_congr_left
      intro m _
      by_cases h : m.match_id = mid <;> simp [h]
  | playerNode _ _ => rfl

/-- Every row of a linked store comes from a row of the original store,
with the same id, and with `next_match_id` redirected to the shell exactly
when the node is the match behind that row. -/
theorem linkToShell_rows (store : List MatchRec) (n : BNode) (i : Nat) :
    ∀ x ∈ linkToShell store n i, ∃ m, m ∈ store
      ∧ x.match_id = m.match_id
      ∧ ((m.match_id ∈ nodeIds [n] ∧ x.next_match_id = some i)
         ∨ (m.match_id ∉ nodeIds [n] ∧ x.next_match_id = m.next_match_id)) := by
  intro x hx
  cases n with
  | playerNode u un =>
      exact ⟨x, hx, rfl, Or.inr ⟨by simp [nodeIds], rfl⟩⟩
  | matchNode mid =>
      obtain ⟨m, hm, hxm⟩ := List.mem_map.mp hx
      by_cases h : m.match_id = mid
      · refine ⟨m, hm, ?_, Or.inl ⟨by simp [nodeIds, h], ?_⟩⟩
        · rw [← hxm]
          simp [h]
        · rw [← hxm]
          simp [h]
      · refine ⟨m, hm, ?_, Or.inr ⟨by simp [nodeIds, h], ?_⟩⟩
        · rw [← hxm]
          simp [h]
        · rw [← hxm]
          simp [h]

/-- Rows after linking both contributing nodes to a fresh shell id. -/
theorem linkToShell2_rows (store : List MatchRec) (n1 n2 : BNode) (i : Nat) :
    ∀ x ∈ linkToShell (linkToShell store n1 i) n2 i, ∃ m, m ∈ store
      ∧ x.match_id = m.match_id
      ∧ ((m.match_id ∈ nodeIds [n1] ++ nodeIds [n2] ∧ x.next_match_id = some i)
         ∨ (m.match_id ∉ nodeIds [n1] ++ nodeIds [n2]
             ∧ x.next_match_id = m.next_match_id)) := by
  intro x hx
  obtain ⟨y, hy, hxy, hxcase⟩ := linkToShell_rows _ n2 i x hx
  obtain ⟨m, hm, hym, hycase⟩ := linkToShell_rows store n1 i y hy
  refine ⟨m, hm, by rw [hxy, hym], ?_⟩
  rcases hxcase with ⟨hhit2, hnext2⟩ | ⟨hmiss2, hnext2⟩
  · rw [hym] at hhit2
    exact Or.inl ⟨List.mem_append_right _ hhit2, hnext2⟩
  · rw [hym] at hmiss2
    rcases hycase with ⟨hhit1, hnext1⟩ | ⟨hmiss1, hnext1⟩
    · exact Or.inl ⟨List.mem_append_left _ hhit1, by rw [hnext2, hnext1]⟩
    · refine Or.inr ⟨?_, by rw [hnext2, hnext1]⟩
      intro hc
      rcases List.mem_append.mp hc with hc | hc
      · exact hmiss1 hc
      · exact hmiss2 hc

/-- One shell round preserves the invariant, with the pending ids of the
incoming nodes replaced by those of the resulting nodes; the id counter
only grows. -/
theorem bracketShellRound_inv (t_id : String) (rn : Nat) :
    ∀ (ns : List BNode) (idx : Nat) (st : BuildSt) (E : List Nat),
      BInv (E ++ nodeIds ns) st →
      BInv (E ++ nodeIds (bracketShellRound t_id rn ns idx st).1)
        (bracketShellRound t_id rn ns idx st).2
      ∧ st.nextId ≤ (bracketShellRound t_id rn ns idx st).2.nextId
  | [], _, st, E, h => ⟨h, le_refl _⟩
  | [n], _, st, E, h => ⟨h, le_refl _⟩
  | n1 :: n2 :: rest, idx, st, E, h => by
      obtain ⟨hpw, hbound, hnd, hmem, hrows⟩ := h
      rw [nodeIds_pair n1 n2 rest] at hnd hmem hrows
      obtain ⟨hndE, hndAR, hdisE⟩ := List.nodup_append.mp hnd
      obtain ⟨hndA, hndR, hdisA⟩ := List.nodup_append.mp hndAR
      -- abbreviations
      have hA12old : ∀ i ∈ nodeIds [n1] ++ nodeIds [n2], i ∈ storeIds st.store := by
        intro i hi
        exact hmem i (List.mem_append_right _ (List.mem_append_left _ hi))
      have hA12lt : ∀ i ∈ nodeIds [n1] ++ nodeIds [n2], i < st.nextId := by
        intro i hi
        exact hbound i (hA12old i hi)
      have hEold : ∀ i ∈ E, i ∈ storeIds st.store := by
        intro i hi
        exact hmem i (List.mem_append_left _ hi)
      have hRold : ∀ i ∈ nodeIds rest, i ∈ storeIds st.store := by
        intro i hi
        exact hmem i (List.mem_append_right _ (List.mem_append_right _ hi))
      have hids2 : storeIds (linkToShell (linkToShell
            (st.store ++ [mkShell t_id rn (idx + 1) n1 n2 st.nextId]) n1 st.nextId)
            n2 st.nextId)
          = storeIds st.store ++ [st.nextId] := by
        rw [storeIds_linkToShell, storeIds_linkToShell]
        simp [storeIds, mkShell_match_id]
      -- invariant for the recursive call
      have hinv2 : BInv ((E ++ [st.nextId]) ++ nodeIds rest)
          { nextId := st.nextId + 1,
            store := linkToShell (linkToShell
              (st.store ++ [mkShell t_id rn (idx + 1) n1 n2 st.nextId]) n1 st.nextId)
              n2 st.nextId } := by
        refine ⟨?_, ?_, ?_, ?_, ?_⟩
        · show (storeIds _).Pairwise (· < ·)
          rw [hids2, List.pairwise_append]
          refine ⟨hpw, by simp, ?_⟩
          intro a ha b hb
          simp at hb
          subst hb
          exact hbound a ha
        · show ∀ i ∈ storeIds _, i < st.nextId + 1
          intro i hi
          rw [hids2] at hi
          rcases List.mem_append.mp hi with hi | hi
          · have := hbound i hi
            omega
          · simp at hi
            omega
        · refine List.nodup_append.mpr ⟨List.nodup_append.mpr ⟨hndE, by simp, ?_⟩, hndR, ?_⟩
          · intro a ha hb
            simp at hb
            subst hb
            exact absurd (hbound _ (hEold _ ha)) (lt_irrefl st.nextId)
          · intro a ha hb
            rcases List.mem_append.mp ha with ha | ha
            · exact hdisE ha (List.mem_append_right _ hb)
            · simp at ha
              subst ha
              exact absurd (hbound _ (hRold _ hb)) (lt_irrefl st.nextId)
        · intro i hi
          rw [hids2]
          rcases List.mem_append.mp hi with hi | hi
          · rcases List.mem_append.mp hi with hi | hi
            · exact List.mem_append_left _ (hEold i hi)
            · simp at hi
              subst hi
              exact List.mem_append_right _ (by simp)
          · exact List.mem_append_left _ (hRold i hi)
        · intro x hx
          obtain ⟨m, hm, hid, hcase⟩ :=
            linkToShell2_rows (st.store ++ [mkShell t_id rn (idx + 1) n1 n2 st.nextId])
              n1 n2 st.nextId x hx
          rcases List.mem_append.mp hm with hmold | hmshell
          · -- a row of the old store
            have hmidmem : m.match_id ∈ storeIds st.store := List.mem_map.mpr ⟨m, hmold, rfl⟩
            have hmlt : m.match_id < st.nextId := hbound _ hmidmem
            rcases hcase with ⟨hhit, hnext⟩ | ⟨hmiss, hnext⟩
            · -- linked to the fresh shell: no longer pending, links upward
              constructor
              · intro hc
                exfalso
                rcases List.mem_append.mp hc with hc | hc
                · rcases List.mem_append.mp hc with hc | hc
                  · rw [hid] at hc
                    exact hdisE hc (List.mem_append_left _ hhit)
                  · simp at hc
                    rw [hid] at hc
                    omega
                · rw [hid] at hc
                  exact hdisA hhit hc
              · intro _
                refine ⟨st.nextId, hnext, ?_, ?_⟩
                · rw [hids2]
                  exact List.mem_append_right _ (by simp)
                · rw [hid]
                  exact hmlt
            · -- untouched row: pending status agrees with the old pending list
              have horig := hrows m hmold
              constructor
              · intro hc
                rw [hnext]
                apply horig.1
                rcases List.mem_append.mp hc with hc | hc
                · rcases List.mem_append.mp hc with hc | hc
                  · rw [hid] at hc
                    exact List.mem_append_left _ hc
                  · simp at hc
                    rw [hid] at hc
                    omega
                · rw [hid] at hc
                  exact List.mem_append_right _ (List.mem_append_right _ hc)
              · intro hc
                have hnot : m.match_id ∉ E ++ ((nodeIds [n1] ++ nodeIds [n2]) ++ nodeIds rest) := by
                  intro hc2
                  rcases List.mem_append.mp hc2 with hc2 | hc2
                  · exact hc (List.mem_append_left _ (List.mem_append_left _ (by rw [hid]; exact hc2)))
                  · rcases List.mem_append.mp hc2 with hc2 | hc2
                    · exact hmiss hc2
                    · exact hc (List.mem_append_right _ (by rw [hid]; exact hc2))
                obtain ⟨j, hj1, hj2, hj3⟩ := horig.2 hnot
                refine ⟨j, by rw [hnext]; exact hj1, ?_, ?_⟩
                · rw [hids2]
                  exact List.mem_append_left _ hj2
                · rw [hid]
                  exact hj3
          · -- the fresh shell row itself: pending, unlinked
            simp at hmshell
            subst hmshell
            have hxid : x.match_id = st.nextId := by
              rw [hid, mkShell_match_id]
            rcases hcase with ⟨hhit, _⟩ | ⟨_, hnext⟩
            · exfalso
              rw [mkShell_match_id] at hhit
              exact absurd (hA12lt _ hhit) (lt_irrefl st.nextId)
            · constructor
              · intro _
                rw [hnext, mkShell_next]
              · intro hc
                exfalso
                apply hc
                rw [hxid]
                exact List.mem_append_left _ (List.mem_append_right _ (by simp))
      -- recurse and reassemble
      have key := bracketShellRound_inv t_id rn rest (idx + 1)
        { nextId := st.nextId + 1,
          store := linkToShell (linkToShell
            (st.store ++ [mkShell t_id rn (idx + 1) n1 n2 st.nextId]) n1 st.nextId)
            n2 st.nextId } (E ++ [st.nextId]) hinv2
      simp only [bracketShellRound, mkShell_match_id]
      constructor
      · rw [nodeIds_cons_match]
        have hl : (E ++ [st.nextId])
              ++ nodeIds (bracketShellRound t_id rn rest (idx + 1)
                { nextId := st.nextId + 1,
                  store := linkToShell (linkToShell
                    (st.store ++ [mkShell t_id rn (idx + 1) n1 n2 st.nextId]) n1 st.nextId)
                    n2 st.nextId }).1
            = E ++ st.nextId :: nodeIds (bracketShellRound t_id rn rest (idx + 1)
                { nextId := st.nextId + 1,
                  store := linkToShell (linkToShell
                    (st.store ++ [mkShell t_id rn (idx + 1) n1 n2 st.nextId]) n1 st.nextId)
                    n2 st.nextId }).1 := by
          simp
        rw [← hl]
        exact key.1
      · have := key.2
        simp only at this
        omega

/-- The shell loop preserves the invariant and stops at one node or fewer. -/
theorem bracketShellLoop_inv (t_id : String) :
    ∀ (k : Nat) (ns : List BNode) (rn : Nat) (st : BuildSt), ns.length ≤ k →
      BInv (nodeIds ns) st →
      BInv (nodeIds (bracketShellLoop t_id ns rn st).1) (bracketShellLoop t_id ns rn st).2
      ∧ (bracketShellLoop t_id ns rn st).1.length ≤ 1 := by
  intro k
  induction k with
  | zero =>
      intro ns rn st h1 h2
      rw [bracketShellLoop.eq_def, if_pos (by omega)]
      exact ⟨h2, by show ns.length ≤ 1; omega⟩
  | succ k ih =>
      intro ns rn st hk hinv
      by_cases hle : ns.length ≤ 1
      · rw [bracketShellLoop.eq_def, if_pos hle]
        exact ⟨hinv, hle⟩
      · rw [bracketShellLoop.eq_def, if_neg hle]
        simp only
        have hround := bracketShellRound_inv t_id (rn + 1) ns 0 st []
          (by simpa using hinv)
        have hlen := bracketShellRound_fst_length t_id (rn + 1) ns 0 st
        exact ih (bracketShellRound t_id (rn + 1) ns 0 st).1 (rn + 2)
          (bracketShellRound t_id (rn + 1) ns 0 st).2
          (by rw [hlen]; omega) (by simpa using hround.1)

/-- Round-1 bookkeeping: the id counter only grows, every created match
has an id in the counter window and no `next_match_id`, and the ids of
the created matches strictly increase. -/
theorem bracketRound1_ids (t_id : String) :
    ∀ (entries : List PData) (idx ctr : Nat),
      ctr ≤ (bracketRound1 t_id entries idx ctr).ctr
      ∧ (∀ m ∈ (bracketRound1 t_id entries idx ctr).ms,
          ctr ≤ m.match_id ∧ m.match_id < (bracketRound1 t_id entries idx ctr).ctr
          ∧ m.next_match_id = none)
      ∧ (storeIds (bracketRound1 t_id entries idx ctr).ms).Pairwise (· < ·)
  | [], _, _ => ⟨le_refl _, by simp [bracketRound1], by simp [bracketRound1, storeIds]⟩
  | [p1], idx, ctr => by
      cases h : p1.1 <;>
        exact ⟨by simp [bracketRound1, h], by simp [bracketRound1, h],
          by simp [bracketRound1, h, storeIds]⟩
  | p1 :: p2 :: rest, idx, ctr => by
      cases h1 : p1.1 with
      | none =>
          cases h2 : p2.1 with
          | none =>
              have ih := bracketRound1_ids t_id rest (idx + 1) ctr
              simpa only [bracketRound1, h1, h2] using ih
          | some u2 =>
              have ih := bracketRound1_ids t_id rest (idx + 1) ctr
              simpa only [bracketRound1, h1, h2] using ih
      | some u1 =>
          cases h2 : p2.1 with
          | none =>
              have ih := bracketRound1_ids t_id rest (idx + 1) ctr
              simpa only [bracketRound1, h1, h2] using ih
          | some u2 =>
              have ih := bracketRound1_ids t_id rest (idx + 1) (ctr + 1)
              obtain ⟨ihc, ihm, ihp⟩ := ih
              simp only [bracketRound1, h1, h2]
              refine ⟨by omega, ?_, ?_⟩
              · intro m hm
                rcases List.mem_cons.mp hm with rfl | hm
                · exact ⟨le_refl _,
                    by show ctr < (bracketRound1 t_id rest (idx + 1) (ctr + 1)).ctr; omega, rfl⟩
                · have := ihm m hm
                  exact ⟨by omega, by omega, this.2.2⟩
              · show (List.map _ (_ :: _)).Pairwise (· < ·)
                rw [List.map_cons, List.pairwise_cons]
                refine ⟨?_, ihp⟩
                intro b hb
                obtain ⟨m, hm, hmb⟩ := List.mem_map.mp hb
                have := ihm m hm
                simp only
                omega

/-- The ids behind the round-1 advancing nodes are exactly the ids of the
round-1 matches, in order. -/
theorem bracketRound1_nodeIds (t_id : String) :
    ∀ (entries : List PData) (idx ctr : Nat),
      nodeIds (bracketRound1 t_id entries idx ctr).nodes
        = storeIds (bracketRound1 t_id entries idx ctr).ms
  | [], _, _ => rfl
  | [p1], idx, ctr => by
      cases h : p1.1 <;> simp [bracketRound1, h, nodeIds, storeIds]
  | p1 :: p2 :: rest, idx, ctr => by
      have h00 := bracketRound1_nodeIds t_id rest (idx + 1) ctr
      have h11 := bracketRound1_nodeIds t_id rest (idx + 1) (ctr + 1)
      cases h1 : p1.1 <;> cases h2 : p2.1 <;>
        simp [bracketRound1, h1, h2, nodeIds, storeIds, h00, h11]

/-- The invariant holds right after round 1. -/
theorem bracketRound1_inv (t_id : String) (entries : List PData) (startId : Nat) :
    BInv (nodeIds (bracketRound1 t_id entries 0 startId).nodes)
      { nextId := (bracketRound1 t_id entries 0 startId).ctr,
        store := (bracketRound1 t_id entries 0 startId).ms } := by
  obtain ⟨hc, hm, hp⟩ := bracketRound1_ids t_id entries 0 startId
  rw [bracketRound1_nodeIds t_id entries 0 startId]
  refine ⟨hp, ?_, ?_, fun i hi => hi, ?_⟩
  · intro i hi
    obtain ⟨m, hmm, hmi⟩ := List.mem_map.mp hi
    have := hm m hmm
    show i < (bracketRound1 t_id entries 0 startId).ctr
    omega
  · exact hp.imp (fun h => Nat.ne_of_lt h)
  · intro m hmm
    refine ⟨fun _ => (hm m hmm).2.2, fun hc2 => ?_⟩
    exact absurd (List.mem_map.mpr ⟨m, hmm, rfl⟩) hc2

/-- Every nonempty list of naturals has a maximal element. -/
theorem exists_max_mem : ∀ (l : List Nat), l ≠ [] → ∃ a ∈ l, ∀ b ∈ l, b ≤ a
  | [x], _ => ⟨x, by simp, by simp⟩
  | x :: y :: rest, _ => by
      obtain ⟨a, ha, hmax⟩ := exists_max_mem (y :: rest) (by simp)
      by_cases h : x ≤ a
      · refine ⟨a, List.mem_cons_of_mem x ha, ?_⟩
        intro b hb
        rcases List.mem_cons.mp hb with rfl | hb
        · exact h
        · exact hmax b hb
      · refine ⟨x, List.mem_cons_self x _, ?_⟩
        intro b hb
        rcases List.mem_cons.mp hb with rfl | hb
        · exact le_refl b
        · have := hmax b hb
          omega

/-- A store with distinct ids holds exactly one row with a given present
id. -/
theorem countP_id_eq_one : ∀ (L : List MatchRec) (i : Nat),
    (storeIds L).Nodup → i ∈ storeIds L →
    L.countP (fun m => m.match_id == i) = 1
  | [], i, _, hmem => by simp [storeIds] at hmem
  | m :: rest, i, hnd, hmem => by
      have hnd2 : (storeIds rest).Nodup := by
        rw [storeIds, List.map_cons, List.nodup_cons] at hnd
        exact hnd.2
      have hhead : m.match_id ∉ storeIds rest := by
        rw [storeIds, List.map_cons, List.nodup_cons] at hnd
        exact hnd.1
      rw [storeIds, List.map_cons, List.mem_cons] at hmem
      rw [List.countP_cons]
      rcases hmem with rfl | hmem
      · have hz : rest.countP (fun m2 => m2.match_id == m.match_id) = 0 := by
          rw [List.countP_eq_zero]
          intro m2 hm2
          intro hc
          apply hhead
          have : m2.match_id = m.match_id := by simpa using hc
          rw [← this]
          exact List.mem_map.mpr ⟨m2, hm2, rfl⟩
        simp [hz]
      · have hne : m.match_id ≠ i := by
          intro hc
          rw [hc] at hhead
          exact hhead hmem
        rw [countP_id_eq_one rest i hnd2 hmem]
        simp [hne]

theorem bracketSize_seven : bracketSize 7 = 8 := by
  have h1 : Nat.clog 2 7 = Nat.clog 2 4 + 1 := by
    rw [Nat.clog_of_two_le (by norm_num) (by norm_num)]
  have h2 : Nat.clog 2 4 = Nat.clog 2 2 + 1 := by
    rw [Nat.clog_of_two_le (by norm_num) (by norm_num)]
  have h3 : Nat.clog 2 2 = Nat.clog 2 1 + 1 := by
    rw [Nat.clog_of_two_le (by norm_num) (by norm_num)]
  have h4 : Nat.clog 2 1 = 0 := Nat.clog_one_right 2
  rw [bracketSize, h1, h2, h3, h4]
  norm_num

/-- A node list of length at most one whose id set is inhabited is a
single match node. -/
theorem nodeIds_singleton_of_short : ∀ (l : List BNode), l.length ≤ 1 →
    ∀ x ∈ nodeIds l, nodeIds l = [x]
  | [], _, x, hx => by simp [nodeIds] at hx
  | [BNode.matchNode k], _, x, hx => by
      rw [nodeIds_cons_match] at hx ⊢
      simp [nodeIds] at hx ⊢
      omega
  | [BNode.playerNode u un], _, x, hx => by
      simp [nodeIds] at hx
  | _ :: _ :: _, hlen, _, _ => by simp at hlen

/-- The finished build with at least two real participants: match ids
strictly increase in creation order, exactly one match (the final) has no
`next_match_id`, and every other match links to a strictly later stored
match — so the links form one rooted tree with no cycles. -/
theorem buildBracket_tree (t_id : String) (entries : List PData) (startId : Nat)
    (h2 : 2 ≤ entries.countP (fun e => e.1.isSome)) :
    (storeIds (buildBracket t_id entries startId).2.store).Pairwise (· < ·)
    ∧ (buildBracket t_id entries startId).2.store.countP
        (fun m => m.next_match_id == none) = 1
    ∧ ∀ m ∈ (buildBracket t_id entries startId).2.store, ∀ j,
        m.next_match_id = some j →
        m.match_id < j ∧ j ∈ storeIds (buildBracket t_id entries startId).2.store := by
  have hlen : (buildBracket t_id entries startId).2.store.length
      = entries.countP (fun e => e.1.isSome) - 1 :=
    buildBracket_store_length t_id entries startId (by omega)
  have hL : buildBracket t_id entries startId
      = bracketShellLoop t_id (bracketRound1 t_id entries 0 startId).nodes 1
          { nextId := (bracketRound1 t_id entries 0 startId).ctr,
            store := (bracketRound1 t_id entries 0 startId).ms } := rfl
  have hloop := bracketShellLoop_inv t_id
    (bracketRound1 t_id entries 0 startId).nodes.length
    (bracketRound1 t_id entries 0 startId).nodes 1
    { nextId := (bracketRound1 t_id entries 0 startId).ctr,
      store := (bracketRound1 t_id entries 0 startId).ms }
    (le_refl _) (bracketRound1_inv t_id entries startId)
  rw [hL] at hlen ⊢
  obtain ⟨⟨hpw, hbound, hndp, hpmem, hrows⟩, hns1⟩ := hloop
  refine ⟨hpw, ?_, ?_⟩
  · -- exactly one root
    have hstore_ne : (bracketShellLoop t_id (bracketRound1 t_id entries 0 startId).nodes 1
        { nextId := (bracketRound1 t_id entries 0 startId).ctr,
          store := (bracketRound1 t_id entries 0 startId).ms }).2.store ≠ [] := by
      intro hc
      rw [hc] at hlen
      simp at hlen
      omega
    have hids_ne : storeIds (bracketShellLoop t_id (bracketRound1 t_id entries 0 startId).nodes 1
        { nextId := (bracketRound1 t_id entries 0 startId).ctr,
          store := (bracketRound1 t_id entries 0 startId).ms }).2.store ≠ [] := by
      intro hc
      apply hstore_ne
      rwa [storeIds, List.map_eq_nil_iff] at hc
    obtain ⟨a, ha, hmax⟩ := exists_max_mem _ hids_ne
    obtain ⟨mm, hmm, hmma⟩ := List.mem_map.mp ha
    -- the maximal-id row must still be pending
    have hpend : mm.match_id ∈ nodeIds (bracketShellLoop t_id
        (bracketRound1 t_id entries 0 startId).nodes 1
        { nextId := (bracketRound1 t_id entries 0 startId).ctr,
          store := (bracketRound1 t_id entries 0 startId).ms }).1 := by
      by_contra hc
      obtain ⟨j, _, hj2, hj3⟩ := (hrows mm hmm).2 hc
      have := hmax j hj2
      rw [hmma] at *
      omega
    -- hence the node list is a single match node
    have hi := nodeIds_singleton_of_short _ hns1 _ hpend
    rw [hi] at hrows hpmem
    -- each row is a root exactly when its id is the pending one
    have hcongr : ∀ x ∈ (bracketShellLoop t_id (bracketRound1 t_id entries 0 startId).nodes 1
        { nextId := (bracketRound1 t_id entries 0 startId).ctr,
          store := (bracketRound1 t_id entries 0 startId).ms }).2.store,
        (x.next_match_id == none) = true ↔ (x.match_id == mm.match_id) = true := by
      intro x hx
      by_cases hxi : x.match_id = mm.match_id
      · have : x.next_match_id = none := (hrows x hx).1 (by simp [hxi])
        simp [this, hxi]
      · obtain ⟨j, hj1, _, _⟩ := (hrows x hx).2 (by simp [hxi])
        simp [hj1, hxi]
    rw [List.countP_congr hcongr]
    apply countP_id_eq_one
    · exact hpw.imp (fun h => Nat.ne_of_lt h)
    · exact hpmem mm.match_id (by simp)
  · -- every linked match points strictly upward to a stored match
    intro m hm j hj
    by_cases hmp : m.match_id ∈ nodeIds (bracketShellLoop t_id
        (bracketRound1 t_id entries 0 startId).nodes 1
        { nextId := (bracketRound1 t_id entries 0 startId).ctr,
          store := (bracketRound1 t_id entries 0 startId).ms }).1
    · have := (hrows m hm).1 hmp
      rw [this] at hj
      cases hj
    · obtain ⟨j2, hj1, hj2, hj3⟩ := (hrows m hm).2 hmp
      rw [hj] at hj1
      cases hj1
      exact ⟨hj3, hj2⟩

def c5Players : List PData :=
  [(some 1, "P1"), (some 2, "P2"), (some 3, "P3"), (some 4, "P4"),
   (some 5, "P5"), (some 6, "P6"), (some 7, "P7")]

def c5EntriesLit : List PData := c5Players ++ [((none : Option Nat), "BYE")]

/-- C5: for 7 participants the bracket size is 8 and the builder creates
exactly 6 matches; for every participant list with at least two real
entries the created matches have strictly increasing ids, exactly one
match (the final) has no `next_match_id`, and every other match links to
a strictly later existing match — one rooted tree, no cycles. -/
theorem c5_bracket_count_and_tree :
    bracketSize 7 = 8
    ∧ (∀ (t_id : String) (ps : List PData) (startId : Nat),
        ps.length = 7 → (∀ p ∈ ps, p.1.isSome = true) →
        (buildBracket t_id
          (ps ++ List.replicate (bracketSize 7 - 7) ((none : Option Nat), "BYE"))
          startId).2.store.length = 6)
    ∧ ∀ (t_id : String) (entries : List PData) (startId : Nat),
        2 ≤ entries.countP (fun e => e.1.isSome) →
        (storeIds (buildBracket t_id entries startId).2.store).Pairwise (· < ·)
        ∧ (buildBracket t_id entries startId).2.store.countP
            (fun m => m.next_match_id == none) = 1
        ∧ ∀ m ∈ (buildBracket t_id entries startId).2.store, ∀ j,
            m.next_match_id = some j →
            m.match_id < j ∧ j ∈ storeIds (buildBracket t_id entries startId).2.store := by
  refine ⟨bracketSize_seven, ?_, ?_⟩
  · intro t_id ps startId hlen hreal
    have hcount : (ps ++ List.replicate (bracketSize 7 - 7)
        ((none : Option Nat), "BYE")).countP (fun e => e.1.isSome) = 7 := by
      rw [List.countP_append]
      have h1 : ps.countP (fun e => e.1.isSome) = 7 := by
        rw [List.countP_eq_length.mpr hreal, hlen]
      have h2 : (List.replicate (bracketSize 7 - 7)
          ((none : Option Nat), "BYE")).countP (fun e => e.1.isSome) = 0 := by
        rw [List.countP_eq_zero]
        intro a ha
        rw [List.eq_of_mem_replicate ha]
        simp
      rw [h1, h2]
    rw [buildBracket_store_length t_id _ startId (by omega), hcount]
  · intro t_id entries startId hge
    exact buildBracket_tree t_id entries startId hge

theorem c5_witness :
    (buildBracket "T" (c5Players ++ List.replicate (bracketSize 7 - 7)
        ((none : Option Nat), "BYE")) 1).2.store.length = 6
    ∧ (buildBracket "T" c5EntriesLit 1).2.store.countP
        (fun m => m.next_match_id == none) = 1 :=
  ⟨c5_bracket_count_and_tree.2.1 "T" c5Players 1 rfl (by decide),
   (c5_bracket_count_and_tree.2.2 "T" c5EntriesLit 1 (by decide)).2.1⟩

/-! ### C1: Round Robin finalization updates standings but never concludes -/

/-- A Round Robin world whose only (hence last) fixture is scheduled. -/
def c1World : World :=
  { tournaments := [{ id := "T", creator_id := 9, name := "t",
                      type := "Round Robin", status := "ongoing" }],
    matchRows := [{ match_id := 1, tournament_id := "T", round_number := 1,
                    match_in_round_index := 1,
                    player1_user_id := some 1, player1_username := some "A",
                    player2_user_id := some 2, player2_username := some "B",
                    status := "scheduled" }] }

/-- C1 counterexample: in a Round Robin tournament whose last league match
is finalized (afterwards every match of the tournament is completed), the
engine does not conclude the tournament: its status stays `ongoing` and no
winner is recorded, contradicting the claim that the tournament is
completed with the top of the ranked standings as winner.  The
round-completion check in `update_match_score_and_progress` only runs for
the Swiss type (main.py line 2531). -/
theorem c1_counterexample :
    (∀ m ∈ (update_match_score_and_progress c1World 1 (2, 1) (some 1) "completed").2.matchRows,
        m.status = "completed") ∧
    (update_match_score_and_progress c1World 1 (2, 1) (some 1) "completed").2.rr_standings ≠ [] ∧
    (get_tournament_details_by_id
      (update_match_score_and_progress c1World 1 (2, 1) (some 1) "completed").2 "T").map
        (fun t => (t.status, t.winner_user_id)) = some ("ongoing", none) := by
  decide

/-- C1 as amended: finalizing a Round Robin league match updates both
players StandingsRows (via the `update_round_robin_player_stats`
accumulation, player 1 with the score as reported, player 2 with it
swapped) and changes nothing else: in particular no round-completion check
runs and the tournament record — status and winner — is left untouched.
Only Swiss tournaments get the completion check. -/
theorem c1_amended_rr_updates_standings_only (w : World) (mid : Nat) (score : Int × Int)
    (winner : Option Nat) (md : MatchRec) (t : TournamentRec)
    (hm : get_match_details_by_match_id w mid = some md)
    (ht : get_tournament_details_by_id w md.tournament_id = some t)
    (htty : t.type = "Round Robin")
    (hnk : t.status ≠ "ongoing_knockout") :
    (update_match_score_and_progress w mid score winner "completed").1 = true ∧
    (update_match_score_and_progress w mid score winner "completed").2.tournaments
      = w.tournaments ∧
    (update_match_score_and_progress w mid score winner "completed").2.gs_standings
      = w.gs_standings ∧
    (update_match_score_and_progress w mid score winner "completed").2.matchRows
      = setMatchRows w.matchRows mid (scoreStamp score winner "completed") ∧
    (update_match_score_and_progress w mid score winner "completed").2.rr_standings
      = (update_round_robin_player_stats
          (update_round_robin_player_stats w t.id md.player1_user_id
            (md.player1_username.getD "") score.1 score.2)
          t.id md.player2_user_id (md.player2_username.getD "") score.2 score.1).rr_standings := by
  have hfetch := get_match_after_set w mid (scoreStamp score winner "completed")
    (fun m => rfl)
  rw [hm] at hfetch
  have hbody : update_match_score_and_progress w mid score winner "completed" =
      (true, update_round_robin_player_stats
        (update_round_robin_player_stats
          { w with matchRows := setMatchRows w.matchRows mid (scoreStamp score winner "completed") }
          t.id md.player1_user_id (md.player1_username.getD "") score.1 score.2)
        t.id md.player2_user_id (md.player2_username.getD "") score.2 score.1) := by
    unfold update_match_score_and_progress
    rw [hm]
    simp only [Option.isNone_some, Bool.false_eq_true, if_false]
    rw [hfetch]
    simp only [Option.map_some']
    have ht1 : get_tournament_details_by_id
        { w with matchRows := setMatchRows w.matchRows mid (scoreStamp score winner "completed") }
        (scoreStamp score winner "completed" md).tournament_id = some t := ht
    rw [ht1]
    have hnkb : (t.status == "ongoing_knockout") = false := by simpa using hnk
    simp [htty, hnkb, scoreStamp]
  rw [hbody]
  refine ⟨rfl, rfl, rfl, rfl, rfl⟩

/-- Witness for `c1_amended_rr_updates_standings_only` on `c1World`. -/
theorem c1_amended_witness :
    (update_match_score_and_progress c1World 1 (2, 1) (some 1) "completed").1 = true ∧
    (update_match_score_and_progress c1World 1 (2, 1) (some 1) "completed").2.tournaments
      = c1World.tournaments ∧
    (update_match_score_and_progress c1World 1 (2, 1) (some 1) "completed").2.gs_standings
      = c1World.gs_standings ∧
    (update_match_score_and_progress c1World 1 (2, 1) (some 1) "completed").2.matchRows
      = setMatchRows c1World.matchRows 1 (scoreStamp (2, 1) (some 1) "completed") ∧
    (update_match_score_and_progress c1World 1 (2, 1) (some 1) "completed").2.rr_standings
      = (update_round_robin_player_stats
          (update_round_robin_player_stats c1World "T" (some 1) "A" 2 1)
          "T" (some 2) "B" 1 2).rr_standings :=
  c1_amended_rr_updates_standings_only c1World 1 (2, 1) (some 1)
    { match_id := 1, tournament_id := "T", round_number := 1,
      match_in_round_index := 1,
      player1_user_id := some 1, player1_username := some "A",
      player2_user_id := some 2, player2_username := some "B",
      status := "scheduled" }
    { id := "T", creator_id := 9, name := "t",
      type := "Round Robin", status := "ongoing" }
    (by decide) (by decide) (by decide) (by decide)

/-! ### C4: knockout finalization advances the winner or concludes -/

/-- C4: when a knockout match is finalized with a winner, then (a) if its
`next_match_id` is set, the winner is written into the first empty player
slot of that next match — slot 1 if it is empty, otherwise slot 2 — and
the next match becomes `scheduled` exactly when both its slots are then
filled, with the tournament record untouched; and (b) if `next_match_id`
is unset, the match was the final: the tournament status becomes
`completed` with the winner recorded, and no other match row changes. -/
theorem c4_knockout_progression (w : World) (mid : Nat) (score : Int × Int)
    (wid : Nat) (md : MatchRec) (t : TournamentRec)
    (hm : get_match_details_by_match_id w mid = some md)
    (ht : get_tournament_details_by_id w md.tournament_id = some t)
    (hko : t.type = "Single Elimination"
      ∨ (t.type = "Group Stage & Knockout" ∧ md.group_id = none)
      ∨ t.status = "ongoing_knockout")
    (hwid : wid ≠ 0) :
    (∀ nid nm, md.next_match_id = some nid → nid ≠ mid →
      get_match_details_by_match_id w nid = some nm →
      ∃ nm2, get_match_details_by_match_id
          (update_match_score_and_progress w mid score (some wid) "completed").2 nid
            = some nm2 ∧
        (pyTruthy nm.player1_user_id = false →
          nm2.player1_user_id = some wid ∧ nm2.player2_user_id = nm.player2_user_id) ∧
        (pyTruthy nm.player1_user_id = true →
          nm2.player2_user_id = some wid ∧ nm2.player1_user_id = nm.player1_user_id) ∧
        nm2.status = (if pyTruthy nm2.player1_user_id && pyTruthy nm2.player2_user_id
          then "scheduled" else nm.status) ∧
        (update_match_score_and_progress w mid score (some wid) "completed").2.tournaments
          = w.tournaments) ∧
    (md.next_match_id = none →
      get_tournament_details_by_id
          (update_match_score_and_progress w mid score (some wid) "completed").2
          md.tournament_id
        = some { t with status := "completed", winner_user_id := some wid,
                        winner_username := some (get_player_username_by_id w wid) } ∧
      (update_match_score_and_progress w mid score (some wid) "completed").2.matchRows
        = setMatchRows w.matchRows mid (scoreStamp score (some wid) "completed")) := by
  have hfetch := get_match_after_set w mid (scoreStamp score (some wid) "completed")
    (fun m => rfl)
  rw [hm] at hfetch
  have hkob : ((t.type == "Single Elimination")
      || (t.type == "Group Stage & Knockout"
          && ((scoreStamp score (some wid) "completed" md).group_id == none))
      || (t.status == "ongoing_knockout")) = true := by
    rcases hko with h | ⟨h1, h2⟩ | h
    · simp [h]
    · have : (scoreStamp score (some wid) "completed" md).group_id = none := h2
      simp [h1, this]
    · simp [h]
  have htid : t.id = md.tournament_id := by
    have := List.find?_some ht
    simpa using this
  have hwt : pyTruthy (some wid) = true := by simp [pyTruthy, hwid]
  set w1 : World :=
    { w with matchRows := setMatchRows w.matchRows mid (scoreStamp score (some wid) "completed") }
    with hw1
  have ht1 : get_tournament_details_by_id w1
      (scoreStamp score (some wid) "completed" md).tournament_id = some t := ht
  constructor
  · intro nid nm hnid hne hnm
    -- the next match row is untouched by the score stamp at `mid`
    have hnm1 : get_match_details_by_match_id w1 nid = some nm := by
      rw [hw1]
      unfold get_match_details_by_match_id setMatchRows
      simp only
      rw [find?_map_other (fun m => m.match_id == mid) (fun m => m.match_id == nid)
        (scoreStamp score (some wid) "completed") w.matchRows
        (fun a ha => by
          have ha2 : a.match_id = nid := by simpa using ha
          simp [ha2, hne])
        (fun a => rfl)]
      simpa using hnm
    -- the slot write applied to the next match
    set g : MatchRec → MatchRec :=
      fillSlot (some wid) (get_player_username_by_id w1 wid)
        (!(pyTruthy nm.player1_user_id)) with hg
    have hgid : ∀ x, (g x).match_id = x.match_id := by
      intro x
      rw [hg]
      unfold fillSlot
      by_cases hb : pyTruthy nm.player1_user_id <;> simp [hb]
    set w2 : World := { w1 with matchRows := setMatchRows w1.matchRows nid g } with hw2
    have hfetch2 : get_match_details_by_match_id w2 nid = some (g nm) := by
      rw [hw2]
      have h0 := get_match_after_set w1 nid g hgid
      rw [hnm1] at h0
      simpa using h0
    have hnext : (scoreStamp score (some wid) "completed" md).next_match_id = some nid := hnid
    have hbody : update_match_score_and_progress w mid score (some wid) "completed" =
        (true,
          if pyTruthy (g nm).player1_user_id && pyTruthy (g nm).player2_user_id then
            setMatchStatus w2 nid "scheduled"
          else w2) := by
      unfold update_match_score_and_progress
      rw [hm]
      simp only [Option.isNone_some, Bool.false_eq_true, if_false]
      rw [← hw1, hfetch]
      simp only [Option.map_some']
      rw [ht1]
      simp only [hkob, hwt, hnext, hnm1, Option.getD_some, Option.map_some',
        Bool.and_true, Bool.true_and, beq_self_eq_true, if_true]
      rw [← hg, ← hw2, hfetch2]
      simp only [Option.map_some']
      split <;> rfl
    rw [hbody]
    by_cases hcase : (pyTruthy (g nm).player1_user_id && pyTruthy (g nm).player2_user_id) = true
    · refine ⟨{ g nm with status := "scheduled" }, ?_, ?_, ?_, ?_, ?_⟩
      · simp only [hcase, if_true]
        have h3 := get_match_after_set w2 nid (fun x => { x with status := "scheduled" })
          (fun m => rfl)
        rw [hfetch2] at h3
        simpa [setMatchStatus] using h3
      · intro hfalse
        rw [hg]; unfold fillSlot; simp [hfalse]
      · intro htrue
        rw [hg]; unfold fillSlot; simp [htrue]
      · have h1 : ({ g nm with status := "scheduled" } : MatchRec).player1_user_id
            = (g nm).player1_user_id := rfl
        have h2 : ({ g nm with status := "scheduled" } : MatchRec).player2_user_id
            = (g nm).player2_user_id := rfl
        rw [h1, h2, if_pos hcase]
      · simp only [hcase, if_true]
        rfl
    · have hcase2 : (pyTruthy (g nm).player1_user_id && pyTruthy (g nm).player2_user_id)
          = false := by simpa using hcase
      refine ⟨g nm, ?_, ?_, ?_, ?_, ?_⟩
      · simp only [hcase2, Bool.false_eq_true, if_false]
        exact hfetch2
      · intro hfalse
        rw [hg]; unfold fillSlot; simp [hfalse]
      · intro htrue
        rw [hg]; unfold fillSlot; simp [htrue]
      · rw [if_neg (by simp [hcase2])]
        rw [hg]; unfold fillSlot
        by_cases hb : pyTruthy nm.player1_user_id <;> simp [hb]
      · simp only [hcase2, Bool.false_eq_true, if_false]
  · intro hnone
    have hnext : (scoreStamp score (some wid) "completed" md).next_match_id = none := hnone
    have hbody : update_match_score_and_progress w mid score (some wid) "completed" =
        (true, (update_tournament_status w1 t.id "completed" (some wid)
          (some (get_player_username_by_id w1 wid))).2) := by
      unfold update_match_score_and_progress
      rw [hm]
      simp only [Option.isNone_some, Bool.false_eq_true, if_false]
      rw [← hw1, hfetch]
      simp only [Option.map_some']
      rw [ht1]
      simp only [hkob, hwt, hnext, Option.getD_some,
        Bool.and_true, Bool.true_and, beq_self_eq_true, if_true]
    rw [hbody]
    constructor
    · unfold update_tournament_status
      rw [if_pos (show (("completed" == "completed") && pyTruthy (some wid)) = true by
        simp [pyTruthy, hwid])]
      unfold get_tournament_details_by_id
      simp only
      rw [htid]
      rw [find?_map_preserve (fun x => x.id == md.tournament_id)
        (fun x => { x with status := "completed", winner_user_id := some wid,
                           winner_username := some ((some (get_player_username_by_id w1 wid)).getD
                             (get_player_username_by_id w1 ((some wid).getD 0))) })
        w1.tournaments (fun a => rfl)]
      rw [show w1.tournaments.find? (fun x => x.id == md.tournament_id) = some t from ht]
      have hun : get_player_username_by_id w1 wid = get_player_username_by_id w wid := rfl
      simp only [Option.map_some', Option.getD_some, htid, hun]
    · unfold update_tournament_status
      split <;> rfl

/-- A one-final knockout world used to witness C4 case (a): winner of match
1 advances into the empty slot of shell match 3. -/
def c4World : World :=
  { tournaments := [{ id := "S", creator_id := 9, name := "s",
                      type := "Single Elimination", status := "ongoing" }],
    matchRows :=
      [{ match_id := 1, tournament_id := "S", round_number := 1,
         match_in_round_index := 1, player1_user_id := some 1,
         player2_user_id := some 2, status := "scheduled", next_match_id := some 3 },
       { match_id := 2, tournament_id := "S", round_number := 1,
         match_in_round_index := 2, player1_user_id := some 4,
         player2_user_id := some 5, status := "scheduled", next_match_id := some 3 },
       { match_id := 3, tournament_id := "S", round_number := 2,
         match_in_round_index := 1, status := "pending_players" }] }

/-- Witness for `c4_knockout_progression`, advancing the winner of match 1
into shell match 3 of `c4World`. -/
theorem c4_witness :
    ∃ nm2, get_match_details_by_match_id
        (update_match_score_and_progress c4World 1 (2, 1) (some 1) "completed").2 3
          = some nm2 ∧
      (pyTruthy (none : Option Nat) = false →
        nm2.player1_user_id = some 1 ∧ nm2.player2_user_id = none) ∧
      (pyTruthy (none : Option Nat) = true →
        nm2.player2_user_id = some 1 ∧ nm2.player1_user_id = none) ∧
      nm2.status = (if pyTruthy nm2.player1_user_id && pyTruthy nm2.player2_user_id
        then "scheduled" else "pending_players") ∧
      (update_match_score_and_progress c4World 1 (2, 1) (some 1) "completed").2.tournaments
        = c4World.tournaments :=
  (c4_knockout_progression c4World 1 (2, 1) 1
    { match_id := 1, tournament_id := "S", round_number := 1,
      match_in_round_index := 1, player1_user_id := some 1,
      player2_user_id := some 2, status := "scheduled", next_match_id := some 3 }
    { id := "S", creator_id := 9, name := "s",
      type := "Single Elimination", status := "ongoing" }
    (by decide) (by decide) (Or.inl (by decide)) (by decide)).1 3
    { match_id := 3, tournament_id := "S", round_number := 2,
      match_in_round_index := 1, status := "pending_players" }
    (by decide) (by decide) (by decide)

/-! ### C6: the round-robin circle-method schedule -/

/-! Generic list helpers. -/

theorem filterMap_eq_map_of_some {α β : Type} (l : List α) (f : α → Option β) (g : α → β)
    (h : ∀ a ∈ l, f a = some (g a)) : l.filterMap f = l.map g := by
  induction l with
  | nil => rfl
  | cons a l ih =>
      rw [List.filterMap_cons, h a (List.mem_cons_self a l), List.map_cons,
        ih (fun b hb => h b (List.mem_cons_of_mem a hb))]

theorem count_range_one (n i0 : Nat) (h : i0 < n) :
    (List.range n).countP (fun i => i == i0) = 1 := by
  have := List.count_eq_one_of_mem (List.nodup_range n) (List.mem_range.mpr h)
  simpa [List.count] using this

theorem sum_map_ite (l : List Nat) (i0 : Nat) :
    (l.map (fun i => if i = i0 then 1 else 0)).sum = l.countP (fun i => i == i0) := by
  induction l with
  | nil => rfl
  | cons a l ih =>
      by_cases h : a = i0 <;>
        simp [List.countP_cons, h, ih, Nat.add_comm]

theorem sum_map_filter_of_zero {α : Type} (l : List α) (g : α → Bool) (f : α → Nat)
    (h : ∀ x ∈ l, g x = false → f x = 0) :
    ((l.filter g).map f).sum = (l.map f).sum := by
  induction l with
  | nil => rfl
  | cons a l ih =>
      have ih2 := ih (fun x hx => h x (List.mem_cons_of_mem a hx))
      by_cases hg : g a
      · rw [List.filter_cons_of_pos hg]
        simp [ih2]
      · rw [List.filter_cons_of_neg (by simpa using hg)]
        rw [ih2]
        simp [h a (List.mem_cons_self a l) (by simpa using hg)]

theorem eq_map_range_getD {α : Type} (l : List α) (d : α) :
    l = (List.range l.length).map (fun i => l.getD i d) := by
  apply List.ext_getElem
  · simp
  · intro i h1 h2
    rw [List.getElem_map, List.getElem_range]
    exact (List.getD_eq_getElem l d h1).symm

/-! Closed form of the rotation. -/

theorem rotateTail_eq {α : Type} (p0 : α) (tail : List α) :
    rotateTail (p0 :: tail) = p0 :: tail.rotate (tail.length - 1) := by
  cases h : tail.getLast? with
  | none =>
      have : tail = [] := by
        cases tail with
        | nil => rfl
        | cons a l => simp at h
      subst this
      simp [rotateTail]
  | some x =>
      have hne : tail ≠ [] := by
        intro hc
        subst hc
        simp [List.getLast?] at h
      have hx : x = tail.getLast hne := by
        have := List.getLast?_eq_getLast tail hne
        rw [h] at this
        exact (Option.some_inj.mp this)
      rw [rotateTail]
      simp only [h]
      subst hx
      congr 1
      have hlen : tail.length - 1 ≤ tail.length := by omega
      rw [List.rotate_eq_drop_append_take hlen]
      have hdl : tail.dropLast = tail.take (tail.length - 1) := by
        rw [List.dropLast_eq_take]
      have hdrop : tail.drop (tail.length - 1) = [tail.getLast hne] := by
        conv_lhs => rw [← List.dropLast_append_getLast hne]
        rw [List.drop_append_of_le_length (by simp [List.length_dropLast])]
        simp [List.length_dropLast]
      rw [hdrop, hdl]
      rfl

theorem rotateTail_iter {α : Type} (p0 : α) (tail : List α) (i : Nat) :
    rotateTail^[i] (p0 :: tail) = p0 :: tail.rotate ((tail.length - 1) * i) := by
  induction i with
  | zero => simp
  | succ i ih =>
      rw [Function.iterate_succ_apply', ih, rotateTail_eq]
      rw [List.length_rotate, List.rotate_rotate, Nat.mul_succ]

theorem rrRoundsAux_eq_map {α : Type} (k : Nat) (l : List α) :
    rrRoundsAux k l = (List.range k).map (fun i => rrRoundMatches (rotateTail^[i] l)) := by
  induction k generalizing l with
  | zero => rfl
  | succ k ih =>
      rw [rrRoundsAux, ih, List.range_succ_eq_map]
      simp only [List.map_cons, Function.iterate_zero_apply, List.map_map]
      congr 1

/-! The schedule in terms of padded positions. -/

/-- The padded entry list of `generate_round_robin_fixtures`. -/
def paddedList (players : List Nat) : List (Option Nat) :=
  (players.map some) ++ (if players.length % 2 ≠ 0 then [none] else [])

/-- Entry of the padded list at a position. -/
def paddedP (players : List Nat) (k : Nat) : Option Nat :=
  (paddedList players).getD k none

/-- First slot position of pairing `j` of round `i` (position `0` is the
fixed player, positions `1..m-1` are the rotating tail). -/
def idxFst (m i j : Nat) : Nat :=
  if j = 0 then 0 else ((j - 1 + (m - 2) * i) % (m - 1)) + 1

/-- Second slot position of pairing `j` of round `i`. -/
def idxSnd (m i j : Nat) : Nat :=
  ((m - 2 - j + (m - 2) * i) % (m - 1)) + 1

/-- Round `i` of the circle method as a list of position pairs. -/
def idxRound (m i : Nat) : List (Nat × Nat) :=
  (List.range (m / 2)).map (fun j => (idxFst m i j, idxSnd m i j))

theorem rrRoundMatches_eq_map {α : Type} (l : List α) (d : α) :
    rrRoundMatches l = (List.range (l.length / 2)).map
      (fun j => (l.getD j d, l.getD (l.length - 1 - j) d)) := by
  unfold rrRoundMatches
  apply filterMap_eq_map_of_some
  intro j hj
  rw [List.mem_range] at hj
  have h1 : j < l.length := by omega
  have h2 : l.length - 1 - j < l.length := by omega
  have hg1 : l.get? j = some (l.getD j d) := by
    rw [List.get?_eq_getElem?, List.getElem?_eq_getElem h1, List.getD_eq_getElem l d h1]
  have hg2 : l.get? (l.length - 1 - j) = some (l.getD (l.length - 1 - j) d) := by
    rw [List.get?_eq_getElem?, List.getElem?_eq_getElem h2, List.getD_eq_getElem l d h2]
  rw [hg1, hg2]

/-- One arranged round of the circle method, described by the position
pairs of `idxRound` under the position-to-entry map `P`. -/
theorem fixture_round_eq {α : Type} (P : Nat → α) (m i : Nat) (hm : 2 ≤ m) (d : α) :
    rrRoundMatches (rotateTail^[i] ((List.range m).map P))
      = (idxRound m i).map (fun q => (P q.1, P q.2)) := by
  have hm1 : m - 1 + 1 = m := by omega
  have hsplit : (List.range m).map P
      = P 0 :: (List.range (m - 1)).map (fun k => P (k + 1)) := by
    conv_lhs => rw [← hm1, List.range_succ_eq_map]
    simp [List.map_map, Function.comp]
  rw [hsplit, rotateTail_iter]
  rw [List.length_map, List.length_range]
  have h22 : m - 1 - 1 = m - 2 := by omega
  rw [h22]
  set T := ((List.range (m - 1)).map (fun k => P (k + 1))).rotate ((m - 2) * i) with hT
  have hTlen : T.length = m - 1 := by
    rw [hT, List.length_rotate, List.length_map, List.length_range]
  have hTget : ∀ j, j < m - 1 → T.getD j d = P (((j + (m - 2) * i) % (m - 1)) + 1) := by
    intro j hjlt
    have hj2 : j < T.length := by omega
    rw [List.getD_eq_getElem T d hj2]
    simp only [hT, List.getElem_rotate, List.length_map, List.length_range,
      List.getElem_map, List.getElem_range]
  rw [rrRoundMatches_eq_map _ d]
  have hlen2 : (P 0 :: T).length = m := by
    rw [List.length_cons, hTlen]
    omega
  rw [hlen2]
  unfold idxRound
  rw [List.map_map]
  apply List.map_congr_left
  intro j hj
  rw [List.mem_range] at hj
  simp only [Function.comp]
  have hfst : (P 0 :: T).getD j d = P (idxFst m i j) := by
    cases j with
    | zero => simp [idxFst]
    | succ j2 =>
        rw [List.getD_cons_succ]
        rw [hTget j2 (by omega)]
        simp [idxFst]
  have hsnd : (P 0 :: T).getD (m - 1 - j) d = P (idxSnd m i j) := by
    have hidx : m - 1 - j = (m - 2 - j) + 1 := by omega
    rw [hidx, List.getD_cons_succ]
    rw [hTget (m - 2 - j) (by omega)]
    simp [idxSnd]
  rw [hfst, hsnd]

/-- The padded list always has even length. -/
theorem paddedList_length_even (players : List Nat) :
    (paddedList players).length % 2 = 0 := by
  unfold paddedList
  by_cases h : players.length % 2 = 0 <;> simp [h, List.length_append] <;> omega

/-- The whole fixture generator as a filtered map over `idxRound`. -/
theorem fixtures_pipeline (players : List Nat) (hp : 2 ≤ players.length) :
    generate_round_robin_fixtures players
      = ((List.range ((paddedList players).length - 1)).map (fun i =>
          ((idxRound (paddedList players).length i).map (fun q =>
            (paddedP players q.1, paddedP players q.2))).filter
            (fun p => p.1.isSome && p.2.isSome))).filter (fun r => !r.isEmpty) := by
  unfold generate_round_robin_fixtures
  simp only
  rw [show (List.map some players ++ if players.length % 2 ≠ 0 then [none] else [])
      = paddedList players from rfl]
  rw [rrRoundsAux_eq_map, List.map_map]
  congr 1
  apply List.map_congr_left
  intro i _
  simp only [Function.comp]
  have hm : 2 ≤ (paddedList players).length := by
    unfold paddedList
    rw [List.length_append, List.length_map]
    omega
  have hpad : paddedList players
      = (List.range (paddedList players).length).map (fun k => paddedP players k) :=
    eq_map_range_getD (paddedList players) none
  conv_lhs => rw [hpad]
  rw [fixture_round_eq (fun k => paddedP players k) _ i hm none]

/-! Modular helpers for the circle method. -/

/-- The tail residue that lands on `w` after the round shift `si`. -/
def unshift (t si w : Nat) : Nat := (w + (t - si % t)) % t

theorem unshift_lt (t si w : Nat) (ht : 1 ≤ t) : unshift t si w < t :=
  Nat.mod_lt _ (by omega)

theorem shift_unshift (t si w : Nat) (ht : 1 ≤ t) (hw : w < t) :
    (unshift t si w + si) % t = w := by
  unfold unshift
  rw [Nat.mod_add_mod]
  have hle : si % t ≤ t := le_of_lt (Nat.mod_lt _ (by omega))
  have hdiv := Nat.div_add_mod si t
  have hrw : w + (t - si % t) + si = w + t + t * (si / t) := by omega
  rw [hrw, Nat.add_mul_mod_self_left, Nat.add_mod_right]
  exact Nat.mod_eq_of_lt hw

theorem shift_inj (t si x y : Nat) (hx : x < t) (hy : y < t)
    (h : (x + si) % t = (y + si) % t) : x = y := by
  have h2 : Nat.ModEq t (x + si) (y + si) := h
  have h3 : Nat.ModEq t x y := Nat.ModEq.add_right_cancel rfl h2
  have h4 : x % t = y % t := h3
  rw [Nat.mod_eq_of_lt hx, Nat.mod_eq_of_lt hy] at h4
  exact h4

theorem coprime_two_of_odd (t : Nat) (ht : t % 2 = 1) : Nat.Coprime 2 t := by
  unfold Nat.Coprime
  rw [Nat.gcd_rec 2 t, ht]
  rfl

theorem coprime_pred_self (t : Nat) (ht : 1 ≤ t) : Nat.Coprime (t - 1) t := by
  rw [Nat.coprime_self_sub_left ht]
  exact Nat.coprime_one_left t

/-- Cancellation for the affine round maps `i ↦ (c + b*i) % t`. -/
theorem affine_cancel (t b c : Nat) (hco : Nat.Coprime b t) :
    ∀ i, i < t → ∀ i2, i2 < t → (c + b * i) % t = (c + b * i2) % t → i = i2 := by
  intro i hi i2 hi2 h
  have h2 : Nat.ModEq t (c + b * i) (c + b * i2) := h
  have h3 : Nat.ModEq t (b * i) (b * i2) := Nat.ModEq.add_left_cancel rfl h2
  have h4 : Nat.ModEq t i i2 := Nat.ModEq.cancel_left_of_coprime hco.symm h3
  have h5 : i % t = i2 % t := h4
  rw [Nat.mod_eq_of_lt hi, Nat.mod_eq_of_lt hi2] at h5
  exact h5

/-- An injective self-bounded map on `range t` is surjective. -/
theorem mod_affine_exists (t : Nat) (f : Nat → Nat)
    (hinj : ∀ i, i < t → ∀ i2, i2 < t → f i = f i2 → i = i2)
    (hbound : ∀ i, i < t → f i < t) (d : Nat) (hd : d < t) :
    ∃ i0, i0 < t ∧ f i0 = d := by
  have hnd : ((List.range t).map f).Nodup := by
    refine List.Nodup.map_on ?_ (List.nodup_range t)
    intro x hx y hy hxy
    exact hinj x (List.mem_range.mp hx) y (List.mem_range.mp hy) hxy
  have hsub : (List.range t).map f ⊆ List.range t := by
    intro x hx
    obtain ⟨i, hi, rfl⟩ := List.mem_map.mp hx
    exact List.mem_range.mpr (hbound i (List.mem_range.mp hi))
  have hperm : ((List.range t).map f).Perm (List.range t) :=
    (hnd.subperm hsub).perm_of_length_le (by simp)
  have hmem : d ∈ (List.range t).map f :=
    hperm.mem_iff.mpr (List.mem_range.mpr hd)
  obtain ⟨i0, hi0, hf⟩ := List.mem_map.mp hmem
  exact ⟨i0, List.mem_range.mp hi0, hf⟩

/-! Characterization of the slot positions. -/

theorem idxFst_eq_iff (m i j w : Nat) (hm : 2 ≤ m) (hj : j < m / 2) (hw : w < m - 1) :
    idxFst m i j = w + 1 ↔ (1 ≤ j ∧ j - 1 = unshift (m - 1) ((m - 2) * i) w) := by
  unfold idxFst
  by_cases h0 : j = 0
  · subst h0
    simp
  · rw [if_neg h0]
    constructor
    · intro h
      have hx : (j - 1 + (m - 2) * i) % (m - 1) = w := by omega
      have hjlt : j - 1 < m - 1 := by omega
      refine ⟨by omega, ?_⟩
      apply shift_inj (m - 1) ((m - 2) * i) _ _ hjlt (unshift_lt _ _ _ (by omega))
      rw [hx, shift_unshift _ _ _ (by omega) hw]
    · rintro ⟨h1, h2⟩
      rw [h2, shift_unshift _ _ _ (by omega) hw]

theorem idxSnd_eq_iff (m i j w : Nat) (hm : 2 ≤ m) (hj : j < m / 2) (hw : w < m - 1) :
    idxSnd m i j = w + 1 ↔ m - 2 - j = unshift (m - 1) ((m - 2) * i) w := by
  unfold idxSnd
  constructor
  · intro h
    have hx : (m - 2 - j + (m - 2) * i) % (m - 1) = w := by omega
    have hjlt : m - 2 - j < m - 1 := by omega
    apply shift_inj (m - 1) ((m - 2) * i) _ _ hjlt (unshift_lt _ _ _ (by omega))
    rw [hx, shift_unshift _ _ _ (by omega) hw]
  · intro h2
    rw [h2, shift_unshift _ _ _ (by omega) hw]

theorem idxFst_eq_zero_iff (m i j : Nat) (hm : 2 ≤ m) : idxFst m i j = 0 ↔ j = 0 := by
  unfold idxFst
  by_cases h0 : j = 0 <;> simp [h0]

theorem idxSnd_ne_zero (m i j : Nat) : idxSnd m i j ≠ 0 := by
  unfold idxSnd
  omega

theorem idxFst_lt (m i j : Nat) (hm : 2 ≤ m) : idxFst m i j < m := by
  unfold idxFst
  by_cases h0 : j = 0
  · simp [h0]
    omega
  · rw [if_neg h0]
    have := Nat.mod_lt (j - 1 + (m - 2) * i) (show 0 < m - 1 by omega)
    omega

theorem idxSnd_lt (m i j : Nat) (hm : 2 ≤ m) : idxSnd m i j < m := by
  unfold idxSnd
  have := Nat.mod_lt (m - 2 - j + (m - 2) * i) (show 0 < m - 1 by omega)
  omega

theorem idxFst_ne_idxSnd (m i j : Nat) (hm : 2 ≤ m) (he : m % 2 = 0) (hj : j < m / 2) :
    idxFst m i j ≠ idxSnd m i j := by
  by_cases h0 : j = 0
  · subst h0
    rw [idxFst]
    simp
    exact fun hc => (idxSnd_ne_zero m i 0) hc.symm
  · intro hc
    rw [idxFst, if_neg h0, idxSnd] at hc
    have h1 : (j - 1 + (m - 2) * i) % (m - 1) = (m - 2 - j + (m - 2) * i) % (m - 1) := by
      omega
    have h2 : j - 1 = m - 2 - j :=
      shift_inj (m - 1) ((m - 2) * i) _ _ (by omega) (by omega) h1
    omega

theorem sum_eq_one_of_indicator (t i0 : Nat) (f : Nat → Nat) (hi0 : i0 < t)
    (hf : ∀ i, i < t → f i = if i = i0 then 1 else 0) :
    ((List.range t).map f).sum = 1 := by
  rw [List.map_congr_left (fun i hi => hf i (List.mem_range.mp hi))]
  rw [sum_map_ite]
  exact count_range_one t i0 hi0

/-- Every padded position appears in exactly one slot of every round. -/
theorem idxRound_pos_count (m i v : Nat) (hm : 2 ≤ m) (he : m % 2 = 0) (hv : v < m) :
    (idxRound m i).countP (fun q => q.1 == v || q.2 == v) = 1 := by
  unfold idxRound
  rw [List.countP_map]
  cases v with
  | zero =>
      have hcongr : ∀ j ∈ List.range (m / 2),
          (((fun q : Nat × Nat => q.1 == 0 || q.2 == 0) ∘
            (fun j => (idxFst m i j, idxSnd m i j))) j = true) ↔ ((j == 0) = true) := by
        intro j hj
        rw [List.mem_range] at hj
        simp only [Function.comp, Bool.or_eq_true, beq_iff_eq]
        rw [idxFst_eq_zero_iff m i j hm]
        have := idxSnd_ne_zero m i j
        tauto
      rw [List.countP_congr hcongr]
      exact count_range_one _ _ (by omega)
  | succ w =>
      have hwlt : w < m - 1 := by omega
      have hyl : unshift (m - 1) ((m - 2) * i) w < m - 1 :=
        unshift_lt _ _ _ (by omega)
      have hcongr : ∀ j ∈ List.range (m / 2),
          (((fun q : Nat × Nat => q.1 == w + 1 || q.2 == w + 1) ∘
            (fun j => (idxFst m i j, idxSnd m i j))) j = true)
          ↔ ((j == (if 2 * unshift (m - 1) ((m - 2) * i) w + 3 ≤ m - 1
              then unshift (m - 1) ((m - 2) * i) w + 1
              else m - 2 - unshift (m - 1) ((m - 2) * i) w)) = true) := by
        intro j hj
        rw [List.mem_range] at hj
        simp only [Function.comp, Bool.or_eq_true, beq_iff_eq]
        rw [idxFst_eq_iff m i j w hm hj hwlt, idxSnd_eq_iff m i j w hm hj hwlt]
        split <;> omega
      rw [List.countP_congr hcongr]
      apply count_range_one
      split <;> omega

/-- The slot pairing position `0` (fixed seat) with position `v` shows up
in exactly one round. -/
theorem idxRound_pair_sum_zero (m v : Nat) (hm : 2 ≤ m) (he : m % 2 = 0)
    (hv : v < m) (hv1 : 1 ≤ v) :
    ((List.range (m - 1)).map (fun i => (idxRound m i).countP
        (fun q => (q.1 == 0 && q.2 == v) || (q.1 == v && q.2 == 0)))).sum = 1 := by
  obtain ⟨w, rfl⟩ : ∃ w, v = w + 1 := ⟨v - 1, by omega⟩
  have hwlt : w < m - 1 := by omega
  -- the round where the fixed seat meets v
  have hco : Nat.Coprime (m - 2) (m - 1) := by
    have := coprime_pred_self (m - 1) (by omega)
    have h22 : m - 1 - 1 = m - 2 := by omega
    rwa [h22] at this
  obtain ⟨i0, hi0, hf0⟩ := mod_affine_exists (m - 1)
    (fun i => ((m - 2) + (m - 2) * i) % (m - 1))
    (affine_cancel (m - 1) (m - 2) (m - 2) hco)
    (fun i hi => Nat.mod_lt _ (by omega)) w hwlt
  -- the per-round condition
  have hcond : ∀ i, (idxSnd m i 0 = w + 1
      ↔ ((m - 2) + (m - 2) * i) % (m - 1) = w) := by
    intro i
    rw [idxSnd_eq_iff m i 0 w hm (by omega) hwlt]
    have hsz : m - 2 - 0 = m - 2 := by omega
    rw [hsz]
    constructor
    · intro h
      nth_rewrite 1 [h]
      rw [shift_unshift _ _ _ (by omega) hwlt]
    · intro h
      exact shift_inj (m - 1) ((m - 2) * i) (m - 2) _ (by omega)
        (unshift_lt _ _ _ (by omega))
        (by rw [h, shift_unshift _ _ _ (by omega) hwlt])
  apply sum_eq_one_of_indicator (m - 1) i0 _ hi0
  intro i hi
  by_cases hii : i = i0
  · subst hii
    rw [if_pos rfl]
    unfold idxRound
    rw [List.countP_map]
    have hsndv : idxSnd m i 0 = w + 1 := (hcond i).mpr hf0
    have hcongr : ∀ j ∈ List.range (m / 2),
        (((fun q : Nat × Nat => (q.1 == 0 && q.2 == w + 1) || (q.1 == w + 1 && q.2 == 0)) ∘
          (fun j => (idxFst m i j, idxSnd m i j))) j = true) ↔ ((j == 0) = true) := by
      intro j hj
      rw [List.mem_range] at hj
      simp only [Function.comp, Bool.or_eq_true, Bool.and_eq_true, beq_iff_eq]
      constructor
      · rintro (⟨h1, _⟩ | ⟨_, h2⟩)
        · exact (idxFst_eq_zero_iff m i j hm).mp h1
        · exact absurd h2 (idxSnd_ne_zero m i j)
      · intro h
        subst h
        refine Or.inl ⟨by simp [idxFst], hsndv⟩
    rw [List.countP_congr hcongr]
    exact count_range_one _ _ (by omega)
  · rw [if_neg hii]
    unfold idxRound
    rw [List.countP_map]
    rw [List.countP_eq_zero]
    intro j hj
    rw [List.mem_range] at hj
    simp only [Function.comp, Bool.or_eq_true, Bool.and_eq_true, beq_iff_eq]
    rintro (⟨h1, h2⟩ | ⟨_, h2⟩)
    · have hj0 : j = 0 := (idxFst_eq_zero_iff m i j hm).mp h1
      subst hj0
      have hcnd := (hcond i).mp h2
      exact hii (affine_cancel (m - 1) (m - 2) (m - 2) hco i hi i0 hi0
        (by rw [hcnd, hf0]))
    · exact (idxSnd_ne_zero m i j) h2

/-- A pair of two distinct rotating positions is matched in exactly one
round. -/
theorem idxRound_pair_sum_pos (m u v : Nat) (hm : 2 ≤ m) (he : m % 2 = 0)
    (hu : u < m) (hv : v < m) (hu1 : 1 ≤ u) (hv1 : 1 ≤ v) (hne : u ≠ v) :
    ((List.range (m - 1)).map (fun i => (idxRound m i).countP
        (fun q => (q.1 == u && q.2 == v) || (q.1 == v && q.2 == u)))).sum = 1 := by
  obtain ⟨wu, rfl⟩ : ∃ w, u = w + 1 := ⟨u - 1, by omega⟩
  obtain ⟨wv, rfl⟩ : ∃ w, v = w + 1 := ⟨v - 1, by omega⟩
  have hwu : wu < m - 1 := by omega
  have hwv : wv < m - 1 := by omega
  have hwne : wu ≠ wv := by omega
  have ht3 : 3 ≤ m - 1 := by omega
  have hodd : (m - 1) % 2 = 1 := by omega
  have hco1 : Nat.Coprime (m - 2) (m - 1) := by
    have := coprime_pred_self (m - 1) (by omega)
    have h22 : m - 1 - 1 = m - 2 := by omega
    rwa [h22] at this
  have hco : Nat.Coprime (2 * (m - 2)) (m - 1) :=
    Nat.Coprime.mul (coprime_two_of_odd _ hodd) hco1
  obtain ⟨i0, hi0, hf0⟩ := mod_affine_exists (m - 1)
    (fun i => ((m - 3) + (2 * (m - 2)) * i) % (m - 1))
    (affine_cancel (m - 1) (2 * (m - 2)) (m - 3) hco)
    (fun i hi => Nat.mod_lt _ (by omega)) ((wu + wv) % (m - 1))
    (Nat.mod_lt _ (by omega))
  have hysum : ∀ i, (wu + wv) % (m - 1)
      = (unshift (m - 1) ((m - 2) * i) wu + unshift (m - 1) ((m - 2) * i) wv
          + 2 * ((m - 2) * i)) % (m - 1) := by
    intro i
    have h1 := shift_unshift (m - 1) ((m - 2) * i) wu (by omega) hwu
    have h2 := shift_unshift (m - 1) ((m - 2) * i) wv (by omega) hwv
    conv_lhs => rw [← h1, ← h2]
    rw [← Nat.add_mod]
    congr 1
    ring
  have hyne : ∀ i, unshift (m - 1) ((m - 2) * i) wu ≠ unshift (m - 1) ((m - 2) * i) wv := by
    intro i hc
    apply hwne
    have h1 := shift_unshift (m - 1) ((m - 2) * i) wu (by omega) hwu
    have h2 := shift_unshift (m - 1) ((m - 2) * i) wv (by omega) hwv
    rw [← h1, ← h2, hc]
  have hcond : ∀ i, (unshift (m - 1) ((m - 2) * i) wu
        + unshift (m - 1) ((m - 2) * i) wv = m - 3)
      ↔ ((m - 3) + (2 * (m - 2)) * i) % (m - 1) = (wu + wv) % (m - 1) := by
    intro i
    constructor
    · intro h
      rw [hysum i, h]
      congr 1
      ring
    · intro h
      have h2 : ((m - 3) + 2 * ((m - 2) * i)) % (m - 1)
          = (unshift (m - 1) ((m - 2) * i) wu + unshift (m - 1) ((m - 2) * i) wv
              + 2 * ((m - 2) * i)) % (m - 1) := by
        rw [← hysum i, ← h]
        congr 1
        ring
      have h3 : Nat.ModEq (m - 1) (m - 3)
          (unshift (m - 1) ((m - 2) * i) wu + unshift (m - 1) ((m - 2) * i) wv) :=
        Nat.ModEq.add_right_cancel rfl h2
      have h4 : (m - 3) % (m - 1)
          = (unshift (m - 1) ((m - 2) * i) wu + unshift (m - 1) ((m - 2) * i) wv) % (m - 1) := h3
      rw [Nat.mod_eq_of_lt (by omega)] at h4
      have hyu := unshift_lt (m - 1) ((m - 2) * i) wu (by omega)
      have hyv := unshift_lt (m - 1) ((m - 2) * i) wv (by omega)
      have hne2 := hyne i
      by_cases hlt : unshift (m - 1) ((m - 2) * i) wu
          + unshift (m - 1) ((m - 2) * i) wv < m - 1
      · rw [Nat.mod_eq_of_lt hlt] at h4
        omega
      · rw [Nat.mod_eq_sub_mod (by omega), Nat.mod_eq_of_lt (by omega)] at h4
        omega
  apply sum_eq_one_of_indicator (m - 1) i0 _ hi0
  intro i hi
  have hyu := unshift_lt (m - 1) ((m - 2) * i) wu (by omega)
  have hyv := unshift_lt (m - 1) ((m - 2) * i) wv (by omega)
  have hne2 := hyne i
  have hslot : ∀ j, j < m / 2 →
      (((idxFst m i j = wu + 1 ∧ idxSnd m i j = wv + 1)
        ∨ (idxFst m i j = wv + 1 ∧ idxSnd m i j = wu + 1))
       ↔ ((1 ≤ j ∧ j - 1 = unshift (m - 1) ((m - 2) * i) wu
             ∧ m - 2 - j = unshift (m - 1) ((m - 2) * i) wv)
          ∨ (1 ≤ j ∧ j - 1 = unshift (m - 1) ((m - 2) * i) wv
             ∧ m - 2 - j = unshift (m - 1) ((m - 2) * i) wu))) := by
    intro j hj
    rw [idxFst_eq_iff m i j wu hm hj hwu, idxFst_eq_iff m i j wv hm hj hwv,
        idxSnd_eq_iff m i j wv hm hj hwv, idxSnd_eq_iff m i j wu hm hj hwu]
    tauto
  by_cases hii : i = i0
  · rw [if_pos hii]
    have hfi : ((m - 3) + (2 * (m - 2)) * i) % (m - 1) = (wu + wv) % (m - 1) := by
      rw [hii]
      exact hf0
    have hcnd := (hcond i).mpr hfi
    unfold idxRound
    rw [List.countP_map]
    have hcongr : ∀ j ∈ List.range (m / 2),
        (((fun q : Nat × Nat => (q.1 == wu + 1 && q.2 == wv + 1)
            || (q.1 == wv + 1 && q.2 == wu + 1)) ∘
          (fun j => (idxFst m i j, idxSnd m i j))) j = true)
        ↔ ((j == (if unshift (m - 1) ((m - 2) * i) wu ≤ unshift (m - 1) ((m - 2) * i) wv
            then unshift (m - 1) ((m - 2) * i) wu + 1
            else unshift (m - 1) ((m - 2) * i) wv + 1)) = true) := by
      intro j hj
      rw [List.mem_range] at hj
      simp only [Function.comp, Bool.or_eq_true, Bool.and_eq_true, beq_iff_eq]
      rw [hslot j hj]
      split <;> omega
    rw [List.countP_congr hcongr]
    apply count_range_one
    split <;> omega
  · rw [if_neg hii]
    unfold idxRound
    rw [List.countP_map]
    rw [List.countP_eq_zero]
    intro j hj
    rw [List.mem_range] at hj
    simp only [Function.comp, Bool.or_eq_true, Bool.and_eq_true, beq_iff_eq]
    intro hcontra
    have hcfg := (hslot j hj).mp hcontra
    have hcnd : unshift (m - 1) ((m - 2) * i) wu
        + unshift (m - 1) ((m - 2) * i) wv = m - 3 := by
      omega
    exact hii (affine_cancel (m - 1) (2 * (m - 2)) (m - 3) hco i hi i0 hi0
      (by rw [(hcond i).mp hcnd, hf0]))

/-- The combined pair-coverage lemma for any two distinct positions. -/
theorem idxRound_pair_sum (m u v : Nat) (hm : 2 ≤ m) (he : m % 2 = 0)
    (hu : u < m) (hv : v < m) (hne : u ≠ v) :
    ((List.range (m - 1)).map (fun i => (idxRound m i).countP
        (fun q => (q.1 == u && q.2 == v) || (q.1 == v && q.2 == u)))).sum = 1 := by
  rcases Nat.eq_zero_or_pos u with rfl | hu1
  · exact idxRound_pair_sum_zero m v hm he hv (by omega)
  rcases Nat.eq_zero_or_pos v with rfl | hv1
  · have hswap : ∀ i ∈ List.range (m - 1),
        (idxRound m i).countP (fun q => (q.1 == u && q.2 == 0) || (q.1 == 0 && q.2 == u))
          = (idxRound m i).countP
              (fun q => (q.1 == 0 && q.2 == u) || (q.1 == u && q.2 == 0)) := by
      intro i _
      apply List.countP_congr
      intro q _
      simp only [Bool.or_eq_true]
      tauto
    rw [List.map_congr_left hswap]
    exact idxRound_pair_sum_zero m u hm he hu (by omega)
  · exact idxRound_pair_sum_pos m u v hm he hu hv hu1 hv1 hne

theorem countP_add_countP_not {α : Type} (l : List α) (p : α → Bool) :
    l.countP p + l.countP (fun a => !(p a)) = l.length := by
  induction l with
  | nil => rfl
  | cons a l ih =>
      rw [List.countP_cons, List.countP_cons, List.length_cons]
      cases h : p a <;> simp [h] <;> omega

theorem countP_unique_of_eq_one {α : Type} [DecidableEq α] (l : List α) (p : α → Bool)
    (h1 : l.countP p = 1) : ∀ a ∈ l, p a = true → ∀ b ∈ l, p b = true → a = b := by
  intro a ha hpa b hb hpb
  by_contra hne
  have hma : a ∈ l.filter p := List.mem_filter.mpr ⟨ha, hpa⟩
  have hmb : b ∈ l.filter p := List.mem_filter.mpr ⟨hb, hpb⟩
  have hcard : ({a, b} : Finset α) ⊆ (l.filter p).toFinset := by
    intro x hx
    rcases Finset.mem_insert.mp hx with rfl | hx
    · exact List.mem_toFinset.mpr hma
    · rw [Finset.mem_singleton.mp hx]
      exact List.mem_toFinset.mpr hmb
  have h2 : 2 ≤ (l.filter p).toFinset.card := by
    have := Finset.card_le_card hcard
    rwa [Finset.card_insert_of_not_mem (by simpa using hne), Finset.card_singleton] at this
  have h3 : (l.filter p).toFinset.card ≤ (l.filter p).length := List.toFinset_card_le _
  rw [← List.countP_eq_length_filter] at h3
  omega

/-! Facts about the padded entry list. -/

theorem paddedList_nodup (players : List Nat) (hnd : players.Nodup) :
    (paddedList players).Nodup := by
  unfold paddedList
  rw [List.nodup_append]
  refine ⟨hnd.map (Option.some_injective Nat), ?_, ?_⟩
  · split <;> simp
  · intro a ha hb
    obtain ⟨x, _, rfl⟩ := List.mem_map.mp ha
    split at hb
    · simp at hb
    · simp at hb

theorem paddedP_eq_some (players : List Nat) (k : Nat) (hk : k < players.length) :
    paddedP players k = some (players.getD k 0) := by
  unfold paddedP paddedList
  rw [List.getD_append _ _ _ _ (by simpa using hk)]
  rw [List.getD_eq_getElem _ _ (by simpa using hk), List.getElem_map,
    List.getD_eq_getElem _ _ hk]

theorem paddedP_none (players : List Nat) (k : Nat) (hk : players.length ≤ k) :
    paddedP players k = none := by
  unfold paddedP paddedList
  rw [List.getD_append_right _ _ _ _ (by simpa using hk)]
  split
  · rcases Nat.lt_or_ge (k - (players.map some).length) 1 with h | h
    · interval_cases hkk : (k - (players.map some).length) <;> rfl
    · rw [List.getD_eq_default]
      simpa using h
  · rw [List.getD_eq_default]
    simp

theorem paddedP_isSome_iff (players : List Nat) (k : Nat) :
    (paddedP players k).isSome = true ↔ k < players.length := by
  constructor
  · intro h
    by_contra hc
    rw [paddedP_none players k (by omega)] at h
    simp at h
  · intro h
    rw [paddedP_eq_some players k h]
    rfl

theorem paddedP_inj (players : List Nat) (hnd : players.Nodup) (a b : Nat)
    (ha : a < (paddedList players).length) (hb : b < (paddedList players).length)
    (h : paddedP players a = paddedP players b) : a = b := by
  have hpadnd := paddedList_nodup players hnd
  unfold paddedP at h
  rw [List.getD_eq_getElem _ _ ha, List.getD_eq_getElem _ _ hb] at h
  exact (List.Nodup.getElem_inj_iff hpadnd).mp h

theorem paddedList_length_ge (players : List Nat) :
    players.length ≤ (paddedList players).length := by
  unfold paddedList
  rw [List.length_append, List.length_map]
  omega

theorem idxRound_mem_facts (m i : Nat) (hm : 2 ≤ m) (he : m % 2 = 0) :
    ∀ q ∈ idxRound m i, q.1 < m ∧ q.2 < m ∧ q.1 ≠ q.2 := by
  intro q hq
  obtain ⟨j, hj, rfl⟩ := List.mem_map.mp hq
  rw [List.mem_range] at hj
  exact ⟨idxFst_lt m i j hm, idxSnd_lt m i j hm, idxFst_ne_idxSnd m i j hm he hj⟩

theorem paddedP_index_of_mem (players : List Nat) (x : Nat) (hx : x ∈ players) :
    ∃ u, u < (paddedList players).length ∧ paddedP players u = some x := by
  have hmem : some x ∈ paddedList players := by
    unfold paddedList
    exact List.mem_append_left _ (List.mem_map_of_mem some hx)
  obtain ⟨u, hu, hux⟩ := List.mem_iff_getElem.mp hmem
  refine ⟨u, hu, ?_⟩
  unfold paddedP
  rw [List.getD_eq_getElem _ _ hu]
  exact hux

/-- Part 1: each unordered pair of participants is scheduled in exactly
one round, exactly once. -/
theorem rr_pair_once (players : List Nat) (hnd : players.Nodup) (hp : 2 ≤ players.length)
    (x y : Nat) (hx : x ∈ players) (hy : y ∈ players) (hne : x ≠ y) :
    ((generate_round_robin_fixtures players).map (fun R =>
        R.countP (fun p => (p.1 == some x && p.2 == some y)
          || (p.1 == some y && p.2 == some x)))).sum = 1 := by
  have hm : 2 ≤ (paddedList players).length :=
    le_trans hp (paddedList_length_ge players)
  have he : (paddedList players).length % 2 = 0 := paddedList_length_even players
  obtain ⟨u, hu, hux⟩ := paddedP_index_of_mem players x hx
  obtain ⟨v, hv, hvy⟩ := paddedP_index_of_mem players y hy
  have huv : u ≠ v := by
    intro hc
    apply hne
    rw [hc, hvy] at hux
    exact Option.some_inj.mp hux.symm
  rw [fixtures_pipeline players hp]
  rw [sum_map_filter_of_zero _ _ _ (by
    intro r _ hr
    have hre : r = [] := List.isEmpty_iff.mp (by simpa using hr)
    rw [hre]
    rfl)]
  rw [List.map_map]
  rw [List.map_congr_left (g := fun i => (idxRound (paddedList players).length i).countP
      (fun q => (q.1 == u && q.2 == v) || (q.1 == v && q.2 == u))) ?_]
  · exact idxRound_pair_sum (paddedList players).length u v hm he hu hv huv
  · intro i _
    simp only [Function.comp]
    rw [List.countP_filter, List.countP_map]
    apply List.countP_congr
    intro q hq
    obtain ⟨h1, h2, _⟩ := idxRound_mem_facts (paddedList players).length i hm he q hq
    simp only [Function.comp, Bool.or_eq_true, Bool.and_eq_true, beq_iff_eq]
    constructor
    · rintro ⟨⟨ha, hb⟩ | ⟨ha, hb⟩, -⟩
      · exact Or.inl ⟨paddedP_inj players hnd q.1 u h1 hu (by rw [ha, hux]),
          paddedP_inj players hnd q.2 v h2 hv (by rw [hb, hvy])⟩
      · exact Or.inr ⟨paddedP_inj players hnd q.1 v h1 hv (by rw [ha, hvy]),
          paddedP_inj players hnd q.2 u h2 hu (by rw [hb, hux])⟩
    · rintro (⟨ha, hb⟩ | ⟨ha, hb⟩)
      · refine ⟨Or.inl ⟨by rw [ha, hux], by rw [hb, hvy]⟩, ?_, ?_⟩
        · rw [ha, hux]
          rfl
        · rw [hb, hvy]
          rfl
      · refine ⟨Or.inr ⟨by rw [ha, hvy], by rw [hb, hux]⟩, ?_, ?_⟩
        · rw [ha, hvy]
          rfl
        · rw [hb, hux]
          rfl

/-- Part 2: a participant plays at most one match per round. -/
theorem rr_at_most_once (players : List Nat) (hnd : players.Nodup) (hp : 2 ≤ players.length) :
    ∀ R ∈ generate_round_robin_fixtures players, ∀ x : Nat,
      R.countP (fun p => p.1 == some x || p.2 == some x) ≤ 1 := by
  intro R hR x
  have hm : 2 ≤ (paddedList players).length :=
    le_trans hp (paddedList_length_ge players)
  have he : (paddedList players).length % 2 = 0 := paddedList_length_even players
  rw [fixtures_pipeline players hp] at hR
  obtain ⟨hR2, _⟩ := List.mem_filter.mp hR
  obtain ⟨i, _, rfl⟩ := List.mem_map.mp hR2
  rw [List.countP_filter, List.countP_map]
  by_cases hex : ∃ u, u < (paddedList players).length ∧ paddedP players u = some x
  · obtain ⟨u, hu, hux⟩ := hex
    have hle : ((List.range ((paddedList players).length / 2)).map
          (fun j => (idxFst (paddedList players).length i j,
            idxSnd (paddedList players).length i j))).countP
          ((fun a => (a.1 == some x || a.2 == some x)
              && (a.1.isSome && a.2.isSome)) ∘
            (fun q => (paddedP players q.1, paddedP players q.2)))
        ≤ (idxRound (paddedList players).length i).countP
            (fun q => q.1 == u || q.2 == u) := by
      apply List.countP_mono_left
      intro q hq hpq
      obtain ⟨h1, h2, _⟩ := idxRound_mem_facts (paddedList players).length i hm he q hq
      simp only [Function.comp, Bool.or_eq_true, Bool.and_eq_true, beq_iff_eq] at hpq ⊢
      rcases hpq.1 with ha | ha
      · exact Or.inl (paddedP_inj players hnd q.1 u h1 hu (by rw [ha, hux]))
      · exact Or.inr (paddedP_inj players hnd q.2 u h2 hu (by rw [ha, hux]))
    calc _ ≤ (idxRound (paddedList players).length i).countP
          (fun q => q.1 == u || q.2 == u) := hle
      _ = 1 := idxRound_pos_count (paddedList players).length i u hm he hu
  · rw [List.countP_eq_zero.mpr ?_]
    · omega
    · intro q hq hpq
      obtain ⟨h1, h2, _⟩ := idxRound_mem_facts (paddedList players).length i hm he
        q (by exact hq)
      simp only [Function.comp, Bool.or_eq_true, Bool.and_eq_true, beq_iff_eq] at hpq
      rcases hpq.1 with ha | ha
      · exact hex ⟨q.1, h1, ha⟩
      · exact hex ⟨q.2, h2, ha⟩

theorem paddedList_length_eq (players : List Nat) :
    (paddedList players).length
      = if players.length % 2 = 0 then players.length else players.length + 1 := by
  unfold paddedList
  rw [List.length_append, List.length_map]
  by_cases h : players.length % 2 = 0 <;> simp [h]

/-- Part 3: the total number of scheduled matches. -/
theorem rr_total (players : List Nat) (hnd : players.Nodup) (hp : 2 ≤ players.length) :
    ((generate_round_robin_fixtures players).map List.length).sum
      = players.length * (players.length - 1) / 2 := by
  have hm : 2 ≤ (paddedList players).length :=
    le_trans hp (paddedList_length_ge players)
  have he : (paddedList players).length % 2 = 0 := paddedList_length_even players
  have hmeq := paddedList_length_eq players
  rw [fixtures_pipeline players hp]
  rw [sum_map_filter_of_zero _ _ _ (by
    intro r _ hr
    have hre : r = [] := List.isEmpty_iff.mp (by simpa using hr)
    rw [hre]
    rfl)]
  rw [List.map_map]
  by_cases hpar : players.length % 2 = 0
  · -- even: every slot survives
    have hN : (paddedList players).length = players.length := by
      rw [hmeq, if_pos hpar]
    rw [List.map_congr_left (g := fun _ => (paddedList players).length / 2) ?_]
    · rw [List.map_const', List.sum_replicate, List.length_range, smul_eq_mul]
      obtain ⟨k, hk⟩ : ∃ k, players.length = 2 * k := ⟨players.length / 2, by omega⟩
      rw [hN, hk]
      have h3 : 2 * k / 2 = k := by omega
      have h2 : 2 * k * (2 * k - 1) = 2 * (k * (2 * k - 1)) := by ring
      have h4 : 2 * (k * (2 * k - 1)) / 2 = k * (2 * k - 1) :=
        Nat.mul_div_cancel_left _ (by omega)
      rw [h3, h2, h4]
      ring
    · intro i _
      simp only [Function.comp]
      rw [← List.countP_eq_length_filter, List.countP_map]
      have hc : ∀ q ∈ idxRound (paddedList players).length i,
          (((fun p : Option Nat × Option Nat => p.1.isSome && p.2.isSome) ∘
            (fun q => (paddedP players q.1, paddedP players q.2))) q = true)
          ↔ ((fun _ => true) q = true) := by
        intro q hq
        obtain ⟨h1, h2, _⟩ := idxRound_mem_facts (paddedList players).length i hm he q hq
        simp only [Function.comp, Bool.and_eq_true]
        rw [paddedP_isSome_iff, paddedP_isSome_iff]
        simp
        omega
      rw [List.countP_congr hc, List.countP_true]
      rw [idxRound, List.length_map, List.length_range]
  · -- odd: the dummy slot is dropped from every round
    have hN : (paddedList players).length = players.length + 1 := by
      rw [hmeq, if_neg hpar]
    rw [List.map_congr_left (g := fun _ => (paddedList players).length / 2 - 1) ?_]
    · rw [List.map_const', List.sum_replicate, List.length_range, smul_eq_mul]
      obtain ⟨k, hk⟩ : ∃ k, players.length = 2 * k + 1 := ⟨players.length / 2, by omega⟩
      rw [hN, hk]
      have h2 : (2 * k + 1 + 1) / 2 - 1 = k := by omega
      have h3 : 2 * k + 1 + 1 - 1 = 2 * k + 1 := by omega
      have h5 : 2 * k + 1 - 1 = 2 * k := by omega
      have h6 : (2 * k + 1) * (2 * k) = 2 * ((2 * k + 1) * k) := by ring
      have h7 : 2 * ((2 * k + 1) * k) / 2 = (2 * k + 1) * k :=
        Nat.mul_div_cancel_left _ (by omega)
      rw [h2, h3, h5, h6, h7]
    · intro i _
      simp only [Function.comp]
      rw [← List.countP_eq_length_filter, List.countP_map]
      have hc : ∀ q ∈ idxRound (paddedList players).length i,
          (((fun p : Option Nat × Option Nat => p.1.isSome && p.2.isSome) ∘
            (fun q => (paddedP players q.1, paddedP players q.2))) q = true)
          ↔ ((!(q.1 == (paddedList players).length - 1
              || q.2 == (paddedList players).length - 1)) = true) := by
        intro q hq
        obtain ⟨h1, h2, _⟩ := idxRound_mem_facts (paddedList players).length i hm he q hq
        simp only [Function.comp, Bool.and_eq_true, Bool.not_eq_true', Bool.or_eq_false_iff,
          beq_eq_false_iff_ne, ne_eq]
        rw [paddedP_isSome_iff, paddedP_isSome_iff]
        constructor
        · intro hss
          omega
        · intro hss
          omega
      rw [List.countP_congr hc]
      have hadd := countP_add_countP_not (idxRound (paddedList players).length i)
        (fun q => q.1 == (paddedList players).length - 1
          || q.2 == (paddedList players).length - 1)
      have hone := idxRound_pos_count (paddedList players).length i
        ((paddedList players).length - 1) hm he (by omega)
      have hlen : (idxRound (paddedList players).length i).length
          = (paddedList players).length / 2 := by
        rw [idxRound, List.length_map, List.length_range]
      omega

/-- Part 4: with an odd number of participants exactly one participant
has no match in each produced round. -/
theorem rr_one_sits_out (players : List Nat) (hnd : players.Nodup) (hp : 2 ≤ players.length)
    (ho : players.length % 2 = 1) :
    ∀ R ∈ generate_round_robin_fixtures players,
      players.countP (fun x =>
        !(R.any (fun p => p.1 == some x || p.2 == some x))) = 1 := by
  intro R hR
  have hm : 2 ≤ (paddedList players).length :=
    le_trans hp (paddedList_length_ge players)
  have he : (paddedList players).length % 2 = 0 := paddedList_length_even players
  have hN : (paddedList players).length = players.length + 1 := by
    rw [paddedList_length_eq, if_neg (by omega)]
  rw [fixtures_pipeline players hp] at hR
  obtain ⟨hR2, _⟩ := List.mem_filter.mp hR
  obtain ⟨i, _, rfl⟩ := List.mem_map.mp hR2
  have hone := idxRound_pos_count (paddedList players).length i
    ((paddedList players).length - 1) hm he (by omega)
  obtain ⟨qd, hqdmem, hqdp⟩ := List.countP_pos.mp (by omega :
    0 < (idxRound (paddedList players).length i).countP
      (fun q => q.1 == (paddedList players).length - 1
        || q.2 == (paddedList players).length - 1))
  obtain ⟨hq1, hq2, hq12⟩ :=
    idxRound_mem_facts (paddedList players).length i hm he qd hqdmem
  have hqcomp : (qd.1 = (paddedList players).length - 1 ∧ qd.2 ≠ (paddedList players).length - 1)
      ∨ (qd.2 = (paddedList players).length - 1
          ∧ qd.1 ≠ (paddedList players).length - 1) := by
    simp only [Bool.or_eq_true, beq_iff_eq] at hqdp
    rcases hqdp with h | h
    · exact Or.inl ⟨h, by omega⟩
    · exact Or.inr ⟨h, by omega⟩
  have hbfacts : (if qd.1 = (paddedList players).length - 1 then qd.2 else qd.1)
        < players.length
      ∧ ((if qd.1 = (paddedList players).length - 1 then qd.2 else qd.1)
        ≠ (paddedList players).length - 1) := by
    rcases hqcomp with ⟨h1, h2⟩ | ⟨h1, h2⟩
    · rw [if_pos h1]
      omega
    · rw [if_neg h2]
      omega
  have huniq_d := countP_unique_of_eq_one (idxRound (paddedList players).length i)
    (fun q => q.1 == (paddedList players).length - 1
      || q.2 == (paddedList players).length - 1) hone
  have hcongr : ∀ k ∈ List.range players.length,
      (((fun x => !((List.filter (fun p => p.1.isSome && p.2.isSome)
          ((idxRound (paddedList players).length i).map
            (fun q => (paddedP players q.1, paddedP players q.2)))).any
          (fun p => p.1 == some x || p.2 == some x))) ∘
        (fun k => players.getD k 0)) k = true)
      ↔ ((k == (if qd.1 = (paddedList players).length - 1 then qd.2 else qd.1)) = true) := by
    intro k hk
    rw [List.mem_range] at hk
    have hkm : k < (paddedList players).length := by omega
    have hpk : paddedP players k = some (players.getD k 0) := paddedP_eq_some players k hk
    simp only [Function.comp, beq_iff_eq, Bool.not_eq_true']
    constructor
    · intro hfalse
      by_contra hkb
      -- k is not the partner of the dummy, so k does play: contradiction
      have honek := idxRound_pos_count (paddedList players).length i k hm he (by omega)
      obtain ⟨qk, hqkmem, hqkp⟩ := List.countP_pos.mp (by omega :
        0 < (idxRound (paddedList players).length i).countP
          (fun q => q.1 == k || q.2 == k))
      obtain ⟨hk1, hk2, hk12⟩ :=
        idxRound_mem_facts (paddedList players).length i hm he qk hqkmem
      simp only [Bool.or_eq_true, beq_iff_eq] at hqkp
      have hnod1 : qk.1 ≠ (paddedList players).length - 1 := by
        intro hc
        have hqkd : (fun q => q.1 == (paddedList players).length - 1
            || q.2 == (paddedList players).length - 1) qk = true := by
          simp [hc]
        have heq := huniq_d qk hqkmem hqkd qd hqdmem hqdp
        rw [heq] at hqkp hc
        rcases hqcomp with ⟨h1, h2⟩ | ⟨h1, h2⟩
        · rw [if_pos h1] at hkb
          omega
        · rw [if_neg h2] at hkb
          omega
      have hnod2 : qk.2 ≠ (paddedList players).length - 1 := by
        intro hc
        have hqkd : (fun q => q.1 == (paddedList players).length - 1
            || q.2 == (paddedList players).length - 1) qk = true := by
          simp [hc]
        have heq := huniq_d qk hqkmem hqkd qd hqdmem hqdp
        rw [heq] at hqkp hc
        rcases hqcomp with ⟨h1, h2⟩ | ⟨h1, h2⟩
        · rw [if_pos h1] at hkb
          omega
        · rw [if_neg h2] at hkb
          omega
      have hmem2 : (paddedP players qk.1, paddedP players qk.2)
          ∈ List.filter (fun p => p.1.isSome && p.2.isSome)
            ((idxRound (paddedList players).length i).map
              (fun q => (paddedP players q.1, paddedP players q.2))) := by
        refine List.mem_filter.mpr ⟨List.mem_map.mpr ⟨qk, hqkmem, rfl⟩, ?_⟩
        simp only [Bool.and_eq_true]
        rw [paddedP_isSome_iff, paddedP_isSome_iff]
        omega
      have hhit : ((paddedP players qk.1, paddedP players qk.2).1
            == some (players.getD k 0)
          || (paddedP players qk.1, paddedP players qk.2).2
            == some (players.getD k 0)) = true := by
        simp only [Bool.or_eq_true, beq_iff_eq]
        rcases hqkp with h | h
        · exact Or.inl (by rw [h, hpk])
        · exact Or.inr (by rw [h, hpk])
      have hany : (List.filter (fun p => p.1.isSome && p.2.isSome)
          ((idxRound (paddedList players).length i).map
            (fun q => (paddedP players q.1, paddedP players q.2)))).any
          (fun p => p.1 == some (players.getD k 0)
            || p.2 == some (players.getD k 0)) = true :=
        List.any_eq_true.mpr ⟨_, hmem2, hhit⟩
      rw [hany] at hfalse
      cases hfalse
    · intro hkb
      rw [List.any_eq_false]
      intro p hp
      obtain ⟨hpv, hps⟩ := List.mem_filter.mp hp
      obtain ⟨q, hqmem, rfl⟩ := List.mem_map.mp hpv
      obtain ⟨hqa, hqb, hqab⟩ :=
        idxRound_mem_facts (paddedList players).length i hm he q hqmem
      intro hphit
      simp only [Bool.or_eq_true, beq_iff_eq] at hphit
      simp only [Bool.and_eq_true] at hps
      rw [paddedP_isSome_iff, paddedP_isSome_iff] at hps
      -- q pairs k, and k is the partner of the dummy, so q must be the
      -- dummy slot; but the dummy slot does not survive the filter
      have hbm : (if qd.1 = (paddedList players).length - 1 then qd.2 else qd.1)
          < (paddedList players).length := by omega
      have honeb := idxRound_pos_count (paddedList players).length i
        (if qd.1 = (paddedList players).length - 1 then qd.2 else qd.1) hm he hbm
      have huniq_b := countP_unique_of_eq_one (idxRound (paddedList players).length i)
        (fun q => q.1 == (if qd.1 = (paddedList players).length - 1 then qd.2 else qd.1)
          || q.2 == (if qd.1 = (paddedList players).length - 1 then qd.2 else qd.1)) honeb
      have hqd_hits : (fun q2 : Nat × Nat =>
          q2.1 == (if qd.1 = (paddedList players).length - 1 then qd.2 else qd.1)
          || q2.2 == (if qd.1 = (paddedList players).length - 1 then qd.2 else qd.1)) qd
            = true := by
        rcases hqcomp with ⟨h1, _⟩ | ⟨_, h2⟩
        · rw [if_pos h1]
          simp
        · rw [if_neg h2]
          simp
      have hq_hits : (fun q2 : Nat × Nat =>
          q2.1 == (if qd.1 = (paddedList players).length - 1 then qd.2 else qd.1)
          || q2.2 == (if qd.1 = (paddedList players).length - 1 then qd.2 else qd.1)) q
            = true := by
        simp only [Bool.or_eq_true, beq_iff_eq]
        rcases hphit with h | h
        · refine Or.inl ?_
          rw [← hkb]
          apply paddedP_inj players hnd q.1 k hqa hkm
          rw [h, hpk]
        · refine Or.inr ?_
          rw [← hkb]
          apply paddedP_inj players hnd q.2 k hqb hkm
          rw [h, hpk]
      have heq := huniq_b q hqmem hq_hits qd hqdmem hqd_hits
      rw [heq] at hps
      rcases hqcomp with ⟨h1, _⟩ | ⟨h2, _⟩ <;> omega
  have hmain : ((List.range players.length).map (fun k => players.getD k 0)).countP
      (fun x => !((List.filter (fun p => p.1.isSome && p.2.isSome)
        ((idxRound (paddedList players).length i).map
          (fun q => (paddedP players q.1, paddedP players q.2)))).any
        (fun p => p.1 == some x || p.2 == some x))) = 1 := by
    rw [List.countP_map, List.countP_congr hcongr]
    exact count_range_one _ _ (by omega)
  exact (congrArg (List.countP _) (eq_map_range_getD players 0)).trans hmain

/-- C6: for every duplicate-free participant list with at least two
entries, the round-robin scheduler pairs every unordered pair of
participants in exactly one round and exactly once, never schedules a
participant twice in one round, creates `N * (N - 1) / 2` matches in
total, and for an odd participant count exactly one participant sits out
in each produced round. -/
theorem c6_round_robin_schedule :
    ∀ (players : List Nat), players.Nodup → 2 ≤ players.length →
      (∀ x ∈ players, ∀ y ∈ players, x ≠ y →
        ((generate_round_robin_fixtures players).map (fun R =>
          R.countP (fun p => (p.1 == some x && p.2 == some y)
            || (p.1 == some y && p.2 == some x)))).sum = 1)
      ∧ (∀ R ∈ generate_round_robin_fixtures players, ∀ x : Nat,
          R.countP (fun p => p.1 == some x || p.2 == some x) ≤ 1)
      ∧ ((generate_round_robin_fixtures players).map List.length).sum
          = players.length * (players.length - 1) / 2
      ∧ (players.length % 2 = 1 →
          ∀ R ∈ generate_round_robin_fixtures players,
            players.countP (fun x =>
              !(R.any (fun p => p.1 == some x || p.2 == some x))) = 1) := by
  intro players hnd hp
  exact ⟨fun x hx y hy hne => rr_pair_once players hnd hp x y hx hy hne,
    rr_at_most_once players hnd hp, rr_total players hnd hp,
    fun ho => rr_one_sits_out players hnd hp ho⟩

theorem c6_witness :
    ((generate_round_robin_fixtures [1, 2, 3, 4, 5]).map (fun R =>
       R.countP (fun p => (p.1 == some 1 && p.2 == some 2)
         || (p.1 == some 2 && p.2 == some 1)))).sum = 1
    ∧ ((generate_round_robin_fixtures [1, 2, 3, 4, 5]).map List.length).sum
        = 5 * (5 - 1) / 2
    ∧ (∀ R ∈ generate_round_robin_fixtures [1, 2, 3, 4, 5],
        [1, 2, 3, 4, 5].countP (fun x =>
          !(R.any (fun p => p.1 == some x || p.2 == some x))) = 1) :=
  ⟨(c6_round_robin_schedule [1, 2, 3, 4, 5] (by decide) (by decide)).1
      1 (by decide) 2 (by decide) (by decide),
   (c6_round_robin_schedule [1, 2, 3, 4, 5] (by decide) (by decide)).2.2.1,
   (c6_round_robin_schedule [1, 2, 3, 4, 5] (by decide) (by decide)).2.2.2 (by decide)⟩

end Tournament
